import Mathlib

/-!
# Unit algebra of `include/units/physicalUnits.h`

A shallow embedding of the compile-time unit algebra: `PhysicalUnits`,
`PhysicalUnitsConversionHelper`, `MultiplyPhysicalUnits` and
`DividePhysicalUnits`.  Template instantiation is modelled by functions into
`Except CompileError _`: a program that is ill-formed (a failed
`static_assert`, an unrepresentable `std::ratio`) is an `error`, a
well-formed instantiation is `ok` with the resulting type.

`std::ratio`, `std::ratio_multiply` and `std::ratio_divide` follow the
C++ standard ([ratio.ratio], [ratio.arithmetic]) with a 64-bit `intmax_t`.

The float type of `kFloatRatio` is a parameter; two instances are given, an exact one
over the rationals and `binary64`, which rounds to nearest with ties to even at 53 bits.
-/

namespace units

/-! ## Diagnostics -/

/-- Reasons for which an instantiation is ill-formed. -/
inductive CompileError where
  /-- `std::ratio<N, 0>`: the denominator of a ratio is zero. -/
  | zeroDenominator
  /-- `std::ratio<N, D>`: the absolute value of `N` or `D` is not an `intmax_t`. -/
  | outOfRange
  /-- `std::ratio_divide<R1, R2>` with `R2::num == 0`. -/
  | divisionByZero
  /-- `std::ratio_multiply` / `std::ratio_divide`: the result is not representable. -/
  | overflow
  /-- The `static_assert` of `PhysicalUnitsConversionHelper`:
  "Requested scale computation for physical units of different physical dimensions." -/
  | dimensionMismatch
  deriving DecidableEq, Repr

deriving instance DecidableEq for Except

/-! ## `std::ratio` -/

/-- The largest `intmax_t`, `2^63 - 1`. -/
def INTMAX_MAX : Int := 9223372036854775807

/-- The template-id `std::ratio<N, D>`: two ratios are the same type exactly
when their template arguments agree. -/
structure Ratio where
  /-- The template argument `N`. -/
  N : Int
  /-- The template argument `D`. -/
  D : Int
  deriving DecidableEq, Repr

/-- The member `std::ratio<N, D>::num`, `sign(N) * sign(D) * abs(N) / gcd(N, D)`. -/
def Ratio.num (r : Ratio) : Int :=
  (Int.sign r.N * Int.sign r.D * (r.N.natAbs : Int)).tdiv (Int.gcd r.N r.D : Int)

/-- The member `std::ratio<N, D>::den`, `abs(D) / gcd(N, D)`. -/
def Ratio.den (r : Ratio) : Int :=
  (r.D.natAbs : Int).tdiv (Int.gcd r.N r.D : Int)

/-- The member `std::ratio<N, D>::type`, which is `std::ratio<num, den>`. -/
def Ratio.type (r : Ratio) : Ratio := ⟨r.num, r.den⟩

/-- A value whose absolute value is an `intmax_t`. -/
def representable (x : Int) : Prop := -INTMAX_MAX ≤ x ∧ x ≤ INTMAX_MAX

instance (x : Int) : Decidable (representable x) := by
  unfold representable; infer_instance

/-- Instantiating `std::ratio<N, D>`: the denominator is not zero and the
absolute values of both arguments are representable. -/
def Ratio.instantiate (r : Ratio) : Except CompileError Ratio :=
  if r.D = 0 then .error .zeroDenominator
  else if representable r.N ∧ representable r.D then .ok r
  else .error .outOfRange

/-- The alias `std::ratio_multiply<R1, R2>`: `std::ratio<U, V>` with `U` and `V` the
`num` and `den` of `std::ratio<R1::num * R2::num, R1::den * R2::den>` computed
without overflow; ill-formed when `U` or `V` is not representable. -/
def ratio_multiply (R1 R2 : Ratio) : Except CompileError Ratio :=
  match R1.instantiate, R2.instantiate with
  | .error e, _ => .error e
  | .ok _, .error e => .error e
  | .ok _, .ok _ =>
    let q : Ratio := ⟨R1.num * R2.num, R1.den * R2.den⟩
    if representable q.num ∧ representable q.den then .ok ⟨q.num, q.den⟩
    else .error .overflow

/-- The alias `std::ratio_divide<R1, R2>`: `std::ratio<U, V>` with `U` and `V` the
`num` and `den` of `std::ratio<R1::num * R2::den, R1::den * R2::num>` computed
without overflow; ill-formed when `R2::num` is zero or when `U` or `V` is not
representable. -/
def ratio_divide (R1 R2 : Ratio) : Except CompileError Ratio :=
  match R1.instantiate, R2.instantiate with
  | .error e, _ => .error e
  | .ok _, .error e => .error e
  | .ok _, .ok _ =>
    if R2.num = 0 then .error .divisionByZero
    else
      let q : Ratio := ⟨R1.num * R2.den, R1.den * R2.num⟩
      if representable q.num ∧ representable q.den then .ok ⟨q.num, q.den⟩
      else .error .overflow

/-! ## Physical dimensions -/

/-- Modelled from the spec: `physicalDimensions.h` is not part of the sources.
A dimension is an ordered tuple of integer exponents, one slot per SI base
dimension (length, mass, time, electric current, temperature, amount of
substance, luminous intensity); two dimensions are the same exactly when all
slots are pairwise equal. -/
structure PhysicalDimensions where
  length : Int
  mass : Int
  time : Int
  current : Int
  temperature : Int
  amount : Int
  luminosity : Int
  deriving DecidableEq, Repr

/-- Modelled from the spec: `MultiplyPhysicalDimensions<L, R>::Result` of the
missing `physicalDimensions.h`, the component-wise sum of the exponents. -/
def MultiplyPhysicalDimensions (l r : PhysicalDimensions) : PhysicalDimensions :=
  ⟨l.length + r.length, l.mass + r.mass, l.time + r.time, l.current + r.current,
   l.temperature + r.temperature, l.amount + r.amount, l.luminosity + r.luminosity⟩

/-- Modelled from the spec: `DividePhysicalDimensions<L, R>::Result` of the
missing `physicalDimensions.h`, the component-wise difference of the exponents. -/
def DividePhysicalDimensions (l r : PhysicalDimensions) : PhysicalDimensions :=
  ⟨l.length - r.length, l.mass - r.mass, l.time - r.time, l.current - r.current,
   l.temperature - r.temperature, l.amount - r.amount, l.luminosity - r.luminosity⟩

/-! ## `PhysicalUnits` and the algebra -/

/-- The class template `PhysicalUnits<PhysicalDimensions_, Scale_>`: a pair of
type aliases; the class body holds no `static_assert`. -/
structure PhysicalUnits where
  /-- The alias `PhysicalDimensions`. -/
  PhysicalDimensions : PhysicalDimensions
  /-- The alias `Scale` (scale to SI). -/
  Scale : Ratio
  deriving DecidableEq, Repr

/-- A floating point representation `FloatType_`, as far as `kFloatRatio` uses it:
the conversion `static_cast<FloatType>(intmax_t)` and the division. -/
structure FloatType where
  /-- The values of the type. -/
  carrier : Type
  /-- The conversion `static_cast<FloatType>` of an `intmax_t`. -/
  cast : Int → carrier
  /-- The division of the type. -/
  div : carrier → carrier → carrier

/-- The idealised floating point type that computes without rounding. -/
def exactFloat : FloatType := ⟨ℚ, fun z => (z : ℚ), fun a b => a / b⟩

/-- The members of a well-formed `PhysicalUnitsConversionHelper<Lhs, Rhs, FloatType>`. -/
structure ConversionHelper (F : FloatType) where
  /-- The alias `Result`. -/
  Result : Ratio
  /-- The constant `kFloatRatio`. -/
  kFloatRatio : F.carrier

/-- The class template `PhysicalUnitsConversionHelper<Lhs, Rhs, FloatType>`:
the `static_assert` on the dimensions, then `Result` and `kFloatRatio`. -/
def PhysicalUnitsConversionHelper (F : FloatType) (Lhs Rhs : PhysicalUnits) :
    Except CompileError (ConversionHelper F) :=
  if Lhs.PhysicalDimensions = Rhs.PhysicalDimensions then
    match ratio_divide Rhs.Scale Lhs.Scale with
    | .error e => .error e
    | .ok Result => .ok ⟨Result, F.div (F.cast Result.num) (F.cast Result.den)⟩
  else .error .dimensionMismatch

/-- The alias `MultiplyPhysicalUnits<Lhs, Rhs>::Result`. -/
def MultiplyPhysicalUnits (Lhs Rhs : PhysicalUnits) : Except CompileError PhysicalUnits :=
  match ratio_multiply Lhs.Scale Rhs.Scale with
  | .error e => .error e
  | .ok s => .ok ⟨MultiplyPhysicalDimensions Lhs.PhysicalDimensions Rhs.PhysicalDimensions, s⟩

/-- The alias `DividePhysicalUnits<Lhs, Rhs>::Result`. -/
def DividePhysicalUnits (Lhs Rhs : PhysicalUnits) : Except CompileError PhysicalUnits :=
  match ratio_divide Lhs.Scale Rhs.Scale with
  | .error e => .error e
  | .ok s => .ok ⟨DividePhysicalDimensions Lhs.PhysicalDimensions Rhs.PhysicalDimensions, s⟩

/-! ## Named dimensions and units used as concrete inputs -/

/-- The dimension of a length. -/
def lengthDim : PhysicalDimensions := ⟨1, 0, 0, 0, 0, 0, 0⟩

/-- The dimension of a time. -/
def timeDim : PhysicalDimensions := ⟨0, 0, 1, 0, 0, 0, 0⟩

/-- The dimension of an area. -/
def areaDim : PhysicalDimensions := ⟨2, 0, 0, 0, 0, 0, 0⟩

/-- The metre, `(length, 1/1)`. -/
def M : PhysicalUnits := ⟨lengthDim, ⟨1, 1⟩⟩

/-- The kilometre, `(length, 1000/1)`. -/
def Km : PhysicalUnits := ⟨lengthDim, ⟨1000, 1⟩⟩

/-- The millimetre, `(length, 1/1000)`. -/
def Mm : PhysicalUnits := ⟨lengthDim, ⟨1, 1000⟩⟩

/-- The second, `(time, 1/1)`. -/
def S : PhysicalUnits := ⟨timeDim, ⟨1, 1⟩⟩

/-! ## The rational value of a ratio -/

/-- The rational number that `std::ratio<N, D>` stands for, `N / D`. -/
def Ratio.toRat (r : Ratio) : ℚ := (r.N : ℚ) / (r.D : ℚ)

/-- The static_asserts of `std::ratio<N, D>` hold. -/
def Ratio.Valid (r : Ratio) : Prop := r.D ≠ 0 ∧ representable r.N ∧ representable r.D

instance (r : Ratio) : Decidable r.Valid := by
  unfold Ratio.Valid; infer_instance

/-- A rational number whose lowest-terms numerator and denominator are representable. -/
def fits (q : ℚ) : Prop := representable q.num ∧ representable (q.den : Int)

instance (q : ℚ) : Decidable (fits q) := by
  unfold fits; infer_instance

/-- A well-formed unit: its scale is a valid `std::ratio` with a non-zero numerator
and a positive denominator. -/
def PhysicalUnits.WellFormed (u : PhysicalUnits) : Prop :=
  u.Scale.Valid ∧ u.Scale.num ≠ 0 ∧ 0 < u.Scale.den

instance (u : PhysicalUnits) : Decidable u.WellFormed := by
  unfold PhysicalUnits.WellFormed; infer_instance

/-- A ratio written in lowest terms with a positive denominator and a non-zero
numerator: `gcd(|N|, D) = 1`, `D > 0`, `N ≠ 0`. -/
def Ratio.Reduced (r : Ratio) : Prop := Int.gcd r.N r.D = 1 ∧ 0 < r.D ∧ r.N ≠ 0

instance (r : Ratio) : Decidable r.Reduced := by
  unfold Ratio.Reduced; infer_instance

/-- The dimension of a pure number: every exponent is 0. -/
def dimensionless : PhysicalDimensions := ⟨0, 0, 0, 0, 0, 0, 0⟩

/-! ## The ratio arithmetic in the words of the spec -/

/-- The operation `reciprocal(a)` in the words of the spec (section 4.1): the ratio
`a.den / a.num` with the sign moved to the numerator; it fails with the division by
zero when the numerator of `a` is zero. -/
def ScaleRatio.reciprocal (a : Ratio) : Except CompileError Ratio :=
  match a.instantiate with
  | .error e => .error e
  | .ok _ =>
    if a.num = 0 then .error .divisionByZero
    else .ok ⟨Int.sign a.num * a.den, (a.num.natAbs : Int)⟩

/-- The operation `divide(a, b)` in the words of the spec (section 4.1):
`multiply(a, reciprocal(b))`. -/
def ScaleRatio.divide (a b : Ratio) : Except CompileError Ratio :=
  match ScaleRatio.reciprocal b with
  | .error e => .error e
  | .ok r => ratio_multiply a r

/-! ## A rounding float type -/

/-- Rounding of a rational number to the nearest integer, ties to the even one. -/
def roundHalfEven (x : ℚ) : Int :=
  if x - ⌊x⌋ < 1 / 2 then ⌊x⌋
  else if 1 / 2 < x - ⌊x⌋ then ⌊x⌋ + 1
  else if ⌊x⌋ % 2 = 0 then ⌊x⌋ else ⌊x⌋ + 1

/-- Rounding of a rational number to IEEE 754 binary64 (`double`), to nearest with ties
to even: the significand is rounded to 53 bits at the exponent of the number. The
exponent is not bounded, which agrees with binary64 on its normal range; the quotients
and products of values of magnitude between `2^-63` and `2^63` lie in that range. -/
def roundBinary64 (q : ℚ) : ℚ :=
  if q = 0 then 0
  else
    (roundHalfEven (q / (2 : ℚ) ^ (Int.log 2 |q| - 52)) : ℚ) *
      (2 : ℚ) ^ (Int.log 2 |q| - 52)

/-- The float type `double` as `FloatType_`: `static_cast<double>` of an `intmax_t` and
the division both round to binary64. -/
def binary64 : FloatType :=
  ⟨ℚ, fun z => roundBinary64 (z : ℚ), fun a b => roundBinary64 (a / b)⟩

/-- The rational number that a binary64 value stands for. -/
def binary64Value (x : binary64.carrier) : ℚ := x

/-- The rational number that a value of the exact float type stands for. -/
def exactValue (x : exactFloat.carrier) : ℚ := x

/-! ## Lemmas on `std::ratio` -/

theorem Ratio.num_eq_toRat_num (r : Ratio) : r.num = r.toRat.num := by
  unfold Ratio.num Ratio.toRat
  rw [← Rat.divInt_eq_div, Rat.num_mk]
  have h : Int.sign r.N * Int.sign r.D * (r.N.natAbs : Int) = Int.sign r.D * r.N := by
    rw [mul_comm (Int.sign r.N), mul_assoc, Int.sign_mul_natAbs]
  rw [h]
  apply Int.tdiv_eq_ediv_of_dvd
  exact Dvd.dvd.mul_left (Int.gcd_dvd_left) _

theorem Ratio.den_eq_toRat_den (r : Ratio) (h : r.D ≠ 0) : r.den = (r.toRat.den : Int) := by
  unfold Ratio.den Ratio.toRat
  rw [← Rat.divInt_eq_div, Rat.den_mk, if_neg h]
  rw [Int.tdiv_eq_ediv_of_dvd]
  · norm_cast
  · exact Int.natCast_dvd_natCast.mpr (Nat.gcd_dvd_right r.N.natAbs r.D.natAbs)

theorem Ratio.den_pos (r : Ratio) (h : r.D ≠ 0) : 0 < r.den := by
  rw [Ratio.den_eq_toRat_den r h]
  exact_mod_cast r.toRat.den_pos

theorem Ratio.value_eq_toRat (r : Ratio) (h : r.D ≠ 0) :
    (r.num : ℚ) / (r.den : ℚ) = r.toRat := by
  rw [Ratio.num_eq_toRat_num, Ratio.den_eq_toRat_den r h]
  exact_mod_cast Rat.num_div_den r.toRat

theorem Ratio.num_eq_zero_iff (r : Ratio) : r.num = 0 ↔ r.toRat = 0 := by
  rw [Ratio.num_eq_toRat_num, Rat.num_eq_zero]

theorem Ratio.toRat_mk_num_den (q : ℚ) : Ratio.toRat ⟨q.num, (q.den : Int)⟩ = q := by
  unfold Ratio.toRat
  exact_mod_cast Rat.num_div_den q

theorem Ratio.num_mk_num_den (q : ℚ) : Ratio.num ⟨q.num, (q.den : Int)⟩ = q.num := by
  rw [Ratio.num_eq_toRat_num, Ratio.toRat_mk_num_den]

theorem Ratio.den_mk_num_den (q : ℚ) : Ratio.den ⟨q.num, (q.den : Int)⟩ = (q.den : Int) := by
  rw [Ratio.den_eq_toRat_den _ (Int.natCast_ne_zero.mpr q.den_nz), Ratio.toRat_mk_num_den]

theorem Ratio.toRat_mul_members (R1 R2 : Ratio) (h1 : R1.D ≠ 0) (h2 : R2.D ≠ 0) :
    Ratio.toRat ⟨R1.num * R2.num, R1.den * R2.den⟩ = R1.toRat * R2.toRat := by
  rw [← Ratio.value_eq_toRat R1 h1, ← Ratio.value_eq_toRat R2 h2]
  unfold Ratio.toRat
  push_cast
  rw [mul_div_mul_comm]

theorem Ratio.toRat_div_members (R1 R2 : Ratio) (h1 : R1.D ≠ 0) (h2 : R2.D ≠ 0) :
    Ratio.toRat ⟨R1.num * R2.den, R1.den * R2.num⟩ = R1.toRat / R2.toRat := by
  rw [← Ratio.value_eq_toRat R1 h1, ← Ratio.value_eq_toRat R2 h2]
  unfold Ratio.toRat
  push_cast
  rw [div_div_div_eq]

theorem Ratio.instantiate_of_valid (r : Ratio) (h : r.Valid) : r.instantiate = .ok r := by
  unfold Ratio.instantiate
  rw [if_neg h.1, if_pos h.2]

theorem Ratio.instantiate_of_not_valid (r : Ratio) (h : ¬ r.Valid) :
    ∃ e, r.instantiate = .error e := by
  unfold Ratio.instantiate
  by_cases hD : r.D = 0
  · exact ⟨_, if_pos hD⟩
  · rw [if_neg hD]
    by_cases hr : representable r.N ∧ representable r.D
    · exact absurd ⟨hD, hr⟩ h
    · exact ⟨_, if_neg hr⟩

theorem Ratio.representable_members (r : Ratio) (h : r.Valid) :
    representable r.num ∧ representable r.den := by
  obtain ⟨hD, hN, hD2⟩ := h
  unfold representable at *
  have hnum : r.num.natAbs ≤ r.N.natAbs := by
    have e : r.num = (Int.sign r.D * r.N) / (Int.gcd r.N r.D : Int) := by
      rw [Ratio.num_eq_toRat_num]; unfold Ratio.toRat
      rw [← Rat.divInt_eq_div, Rat.num_mk]
    rw [e]
    refine le_trans (Int.natAbs_div_le_natAbs _ _) ?_
    rw [Int.natAbs_mul, Int.natAbs_sign_of_nonzero hD, one_mul]
  have hden : r.den ≤ (r.D.natAbs : Int) := by
    rw [Ratio.den_eq_toRat_den r hD]; unfold Ratio.toRat
    rw [← Rat.divInt_eq_div, Rat.den_mk, if_neg hD]
    exact_mod_cast Nat.div_le_self _ _
  have hden0 := Ratio.den_pos r hD
  have hINT : (0 : Int) ≤ INTMAX_MAX := by unfold INTMAX_MAX; decide
  omega

theorem ratio_multiply_eq (R1 R2 : Ratio) (h1 : R1.Valid) (h2 : R2.Valid) :
    ratio_multiply R1 R2 =
      if fits (R1.toRat * R2.toRat) then
        .ok ⟨(R1.toRat * R2.toRat).num, ((R1.toRat * R2.toRat).den : Int)⟩
      else .error .overflow := by
  have hd : R1.den * R2.den ≠ 0 :=
    mul_ne_zero (Ratio.den_pos R1 h1.1).ne.symm (Ratio.den_pos R2 h2.1).ne.symm
  unfold ratio_multiply fits
  rw [Ratio.instantiate_of_valid R1 h1, Ratio.instantiate_of_valid R2 h2]
  simp only [Ratio.num_eq_toRat_num ⟨R1.num * R2.num, R1.den * R2.den⟩,
    Ratio.den_eq_toRat_den ⟨R1.num * R2.num, R1.den * R2.den⟩ hd,
    Ratio.toRat_mul_members R1 R2 h1.1 h2.1]

theorem ratio_divide_eq (R1 R2 : Ratio) (h1 : R1.Valid) (h2 : R2.Valid) (hn : R2.num ≠ 0) :
    ratio_divide R1 R2 =
      if fits (R1.toRat / R2.toRat) then
        .ok ⟨(R1.toRat / R2.toRat).num, ((R1.toRat / R2.toRat).den : Int)⟩
      else .error .overflow := by
  have hd : R1.den * R2.num ≠ 0 := mul_ne_zero (Ratio.den_pos R1 h1.1).ne.symm hn
  unfold ratio_divide fits
  rw [Ratio.instantiate_of_valid R1 h1, Ratio.instantiate_of_valid R2 h2]
  simp only [if_neg hn, Ratio.num_eq_toRat_num ⟨R1.num * R2.den, R1.den * R2.num⟩,
    Ratio.den_eq_toRat_den ⟨R1.num * R2.den, R1.den * R2.num⟩ hd,
    Ratio.toRat_div_members R1 R2 h1.1 h2.1]

theorem ratio_divide_zero (R1 R2 : Ratio) (h1 : R1.Valid) (h2 : R2.Valid) (hn : R2.num = 0) :
    ratio_divide R1 R2 = .error .divisionByZero := by
  unfold ratio_divide
  rw [Ratio.instantiate_of_valid R1 h1, Ratio.instantiate_of_valid R2 h2]
  simp only [if_pos hn]

theorem fits_one : fits 1 := by
  unfold fits representable INTMAX_MAX
  simp

theorem fits_of_valid (r : Ratio) (h : r.Valid) : fits r.toRat := by
  have := Ratio.representable_members r h
  rwa [Ratio.num_eq_toRat_num, Ratio.den_eq_toRat_den r h.1] at this

theorem rat_inv_num (q : ℚ) : q⁻¹.num = Int.sign q.num * (q.den : Int) := by
  have e : q⁻¹ = Rat.divInt (q.den : Int) q.num := Rat.inv_def _
  rw [e, Rat.num_mk]
  have hg : Int.gcd (q.den : Int) q.num = 1 := by
    rw [Int.gcd_comm]; exact q.reduced
  rw [hg]; simp

theorem rat_inv_den (q : ℚ) (h : q ≠ 0) : (q⁻¹.den : Int) = |q.num| := by
  have e : q⁻¹ = Rat.divInt (q.den : Int) q.num := Rat.inv_def _
  rw [e, Rat.den_mk, if_neg (Rat.num_ne_zero.mpr h)]
  have hg : Int.gcd (q.den : Int) q.num = 1 := by
    rw [Int.gcd_comm]; exact q.reduced
  rw [hg, Nat.div_one, Int.abs_eq_natAbs]

theorem fits_inv (q : ℚ) (h : q ≠ 0) (hf : fits q) : fits q⁻¹ := by
  unfold fits representable at *
  rw [rat_inv_num, rat_inv_den q h]
  have hd : (0 : Int) < q.den := by exact_mod_cast q.den_pos
  have hI : (0 : Int) ≤ INTMAX_MAX := by unfold INTMAX_MAX; decide
  rcases lt_trichotomy q.num 0 with hn | hn | hn
  · rw [Int.sign_eq_neg_one_of_neg hn, abs_of_neg hn]; omega
  · exact absurd (Rat.num_eq_zero.mp hn) h
  · rw [Int.sign_eq_one_of_pos hn, abs_of_pos hn]; omega

theorem Ratio.valid_mk_of_fits (q : ℚ) (hf : fits q) : Ratio.Valid ⟨q.num, (q.den : Int)⟩ :=
  ⟨Int.natCast_ne_zero.mpr q.den_nz, hf.1, hf.2⟩

theorem ratio_divide_num_zero (R1 R2 : Ratio) (h : R2.num = 0) (r : Ratio) :
    ratio_divide R1 R2 ≠ .ok r := by
  unfold ratio_divide
  intro hr
  split at hr
  · cases hr
  · cases hr
  · rw [if_pos h] at hr
    cases hr

/-! ## Lemmas on the unit algebra -/

theorem conversion_eq (F : FloatType) (Lhs Rhs : PhysicalUnits)
    (hd : Lhs.PhysicalDimensions = Rhs.PhysicalDimensions)
    (hL : Lhs.Scale.Valid) (hR : Rhs.Scale.Valid) (hn : Lhs.Scale.num ≠ 0) :
    PhysicalUnitsConversionHelper F Lhs Rhs =
      if fits (Rhs.Scale.toRat / Lhs.Scale.toRat) then
        .ok ⟨⟨(Rhs.Scale.toRat / Lhs.Scale.toRat).num,
              ((Rhs.Scale.toRat / Lhs.Scale.toRat).den : Int)⟩,
             F.div (F.cast (Rhs.Scale.toRat / Lhs.Scale.toRat).num)
               (F.cast ((Rhs.Scale.toRat / Lhs.Scale.toRat).den : Int))⟩
      else .error .overflow := by
  unfold PhysicalUnitsConversionHelper
  rw [if_pos hd, ratio_divide_eq _ _ hR hL hn]
  by_cases hf : fits (Rhs.Scale.toRat / Lhs.Scale.toRat)
  · simp only [if_pos hf, Ratio.num_mk_num_den, Ratio.den_mk_num_den]
  · simp only [if_neg hf]

theorem multiply_eq (A B : PhysicalUnits) (hA : A.Scale.Valid) (hB : B.Scale.Valid) :
    MultiplyPhysicalUnits A B =
      if fits (A.Scale.toRat * B.Scale.toRat) then
        .ok ⟨MultiplyPhysicalDimensions A.PhysicalDimensions B.PhysicalDimensions,
             ⟨(A.Scale.toRat * B.Scale.toRat).num, ((A.Scale.toRat * B.Scale.toRat).den : Int)⟩⟩
      else .error .overflow := by
  unfold MultiplyPhysicalUnits
  rw [ratio_multiply_eq _ _ hA hB]
  by_cases hf : fits (A.Scale.toRat * B.Scale.toRat)
  · simp only [if_pos hf]
  · simp only [if_neg hf]

theorem divide_eq (A B : PhysicalUnits) (hA : A.Scale.Valid) (hB : B.Scale.Valid)
    (hn : B.Scale.num ≠ 0) :
    DividePhysicalUnits A B =
      if fits (A.Scale.toRat / B.Scale.toRat) then
        .ok ⟨DividePhysicalDimensions A.PhysicalDimensions B.PhysicalDimensions,
             ⟨(A.Scale.toRat / B.Scale.toRat).num, ((A.Scale.toRat / B.Scale.toRat).den : Int)⟩⟩
      else .error .overflow := by
  unfold DividePhysicalUnits
  rw [ratio_divide_eq _ _ hA hB hn]
  by_cases hf : fits (A.Scale.toRat / B.Scale.toRat)
  · simp only [if_pos hf]
  · simp only [if_neg hf]

theorem PhysicalUnits.WellFormed.toRat_ne_zero {u : PhysicalUnits} (h : u.WellFormed) :
    u.Scale.toRat ≠ 0 :=
  fun h0 => h.2.1 ((Ratio.num_eq_zero_iff _).mpr h0)

theorem divide_multiply_dimensions (a b : PhysicalDimensions) :
    DividePhysicalDimensions (MultiplyPhysicalDimensions a b) b = a := by
  cases a
  simp [DividePhysicalDimensions, MultiplyPhysicalDimensions]

/-! ## Conversion between units -/

/-- C1: when the dimensions of the target `Lhs` and of the source `Rhs` differ, the
conversion helper is rejected with the dimension-mismatch diagnostic, whatever the
two scales and the float type are, so that neither a ratio nor a float exists. -/
theorem conversion_rejects_dimension_mismatch (F : FloatType) (Lhs Rhs : PhysicalUnits)
    (h : Lhs.PhysicalDimensions ≠ Rhs.PhysicalDimensions) :
    PhysicalUnitsConversionHelper F Lhs Rhs = .error .dimensionMismatch ∧
    ∀ c, PhysicalUnitsConversionHelper F Lhs Rhs ≠ .ok c := by
  have e : PhysicalUnitsConversionHelper F Lhs Rhs = .error .dimensionMismatch := by
    unfold PhysicalUnitsConversionHelper
    rw [if_neg h]
  refine ⟨e, fun c hc => ?_⟩
  rw [e] at hc
  cases hc

/-- Witness of C1: a length with scale 1/1000 as target and a time with scale 1/1
as source. -/
theorem conversion_rejects_dimension_mismatch_witness :
    Mm.PhysicalDimensions ≠ S.PhysicalDimensions ∧
    (PhysicalUnitsConversionHelper exactFloat Mm S = .error .dimensionMismatch ∧
     ∀ c, PhysicalUnitsConversionHelper exactFloat Mm S ≠ .ok c) :=
  ⟨by decide, conversion_rejects_dimension_mismatch exactFloat Mm S (by decide)⟩

/-- C2: for a target `Lhs` and a source `Rhs` of the same dimension, with valid
scales and a non-zero target scale, the helper yields a `Result` exactly when the
lowest terms of `Rhs.Scale / Lhs.Scale` are representable; `Result` is then that
exact rational (source over target) in lowest terms, and `kFloatRatio` is the
numerator of `Result` divided by its denominator in the float type. -/
theorem conversion_ratio_exact (F : FloatType) (Lhs Rhs : PhysicalUnits)
    (hd : Lhs.PhysicalDimensions = Rhs.PhysicalDimensions)
    (hL : Lhs.Scale.Valid) (hR : Rhs.Scale.Valid) (hn : Lhs.Scale.num ≠ 0) :
    ((∃ c, PhysicalUnitsConversionHelper F Lhs Rhs = .ok c) ↔
      fits (Rhs.Scale.toRat / Lhs.Scale.toRat)) ∧
    ∀ c, PhysicalUnitsConversionHelper F Lhs Rhs = .ok c →
      c.Result.toRat = Rhs.Scale.toRat / Lhs.Scale.toRat ∧
      c.Result.num = (Rhs.Scale.toRat / Lhs.Scale.toRat).num ∧
      c.Result.den = ((Rhs.Scale.toRat / Lhs.Scale.toRat).den : Int) ∧
      c.kFloatRatio = F.div (F.cast c.Result.num) (F.cast c.Result.den) := by
  rw [conversion_eq F Lhs Rhs hd hL hR hn]
  by_cases hf : fits (Rhs.Scale.toRat / Lhs.Scale.toRat)
  · rw [if_pos hf]
    refine ⟨⟨fun _ => hf, fun _ => ⟨_, rfl⟩⟩, fun c hc => ?_⟩
    injection hc with hc
    subst hc
    simp only [Ratio.toRat_mk_num_den, Ratio.num_mk_num_den, Ratio.den_mk_num_den, and_self]
  · rw [if_neg hf]
    refine ⟨⟨fun ⟨c, hc⟩ => ?_, fun h => absurd h hf⟩, fun c hc => ?_⟩ <;> cases hc

/-- Witness of C2: target `Km` (scale 1000/1) and source `M` (scale 1/1) give the
ratio 1/1000, and target `M` with source `Km` gives 1000/1. -/
theorem conversion_ratio_exact_witness :
    (Km.PhysicalDimensions = M.PhysicalDimensions ∧ Km.Scale.Valid ∧ M.Scale.Valid ∧
      Km.Scale.num ≠ 0) ∧
    (((∃ c, PhysicalUnitsConversionHelper exactFloat Km M = .ok c) ↔
        fits (M.Scale.toRat / Km.Scale.toRat)) ∧
      ∀ c, PhysicalUnitsConversionHelper exactFloat Km M = .ok c →
        c.Result.toRat = M.Scale.toRat / Km.Scale.toRat ∧
        c.Result.num = (M.Scale.toRat / Km.Scale.toRat).num ∧
        c.Result.den = ((M.Scale.toRat / Km.Scale.toRat).den : Int) ∧
        c.kFloatRatio = exactFloat.div (exactFloat.cast c.Result.num)
          (exactFloat.cast c.Result.den)) ∧
    (PhysicalUnitsConversionHelper exactFloat Km M).map (fun c => c.Result) = .ok ⟨1, 1000⟩ ∧
    (PhysicalUnitsConversionHelper exactFloat M Km).map (fun c => c.Result) = .ok ⟨1000, 1⟩ ∧
    (PhysicalUnitsConversionHelper exactFloat Km M).map (fun c => c.kFloatRatio) =
      .ok ((1 : ℚ) / 1000) ∧
    (PhysicalUnitsConversionHelper exactFloat M Km).map (fun c => c.kFloatRatio) =
      .ok (1000 : ℚ) :=
  ⟨by decide, conversion_ratio_exact exactFloat Km M (by decide) (by decide) (by decide)
    (by decide), by decide, by decide, rfl,
    by rw [show (1000 : ℚ) = (1000 : ℚ) / 1 from (div_one _).symm]; rfl⟩

/-- C3: for a target and a source of the same dimension, both well-formed, a value
`v` in the source multiplied by the exact conversion ratio `Result` is a value in the
target with the same SI-equivalent: `(v * Result) * Target.Scale = v * Source.Scale`;
the ratio exists as soon as the lowest terms of `Source.Scale / Target.Scale` are
representable. -/
theorem conversion_preserves_si_value (F : FloatType) (Target Source : PhysicalUnits)
    (hd : Target.PhysicalDimensions = Source.PhysicalDimensions)
    (hT : Target.WellFormed) (hS : Source.WellFormed) :
    (fits (Source.Scale.toRat / Target.Scale.toRat) →
      ∃ c, PhysicalUnitsConversionHelper F Target Source = .ok c) ∧
    ∀ c, PhysicalUnitsConversionHelper F Target Source = .ok c → ∀ v : ℚ,
      (v * ((c.Result.num : ℚ) / (c.Result.den : ℚ))) * Target.Scale.toRat =
        v * Source.Scale.toRat := by
  rw [conversion_eq F Target Source hd hT.1 hS.1 hT.2.1]
  by_cases hf : fits (Source.Scale.toRat / Target.Scale.toRat)
  · rw [if_pos hf]
    refine ⟨fun _ => ⟨_, rfl⟩, fun c hc v => ?_⟩
    injection hc with hc
    subst hc
    simp only [Ratio.num_mk_num_den, Ratio.den_mk_num_den]
    have e : ((Source.Scale.toRat / Target.Scale.toRat).num : ℚ) /
        (((Source.Scale.toRat / Target.Scale.toRat).den : Int) : ℚ) =
        Source.Scale.toRat / Target.Scale.toRat := by
      exact_mod_cast Rat.num_div_den _
    rw [e, mul_assoc, div_mul_cancel₀ _ hT.toRat_ne_zero]
  · rw [if_neg hf]
    exact ⟨fun h => absurd h hf, fun c hc => by cases hc⟩

/-- Witness of C3: converting metres to kilometres. -/
theorem conversion_preserves_si_value_witness :
    (Km.PhysicalDimensions = M.PhysicalDimensions ∧ Km.WellFormed ∧ M.WellFormed) ∧
    ((fits (M.Scale.toRat / Km.Scale.toRat) →
      ∃ c, PhysicalUnitsConversionHelper exactFloat Km M = .ok c) ∧
    ∀ c, PhysicalUnitsConversionHelper exactFloat Km M = .ok c → ∀ v : ℚ,
      (v * ((c.Result.num : ℚ) / (c.Result.den : ℚ))) * Km.Scale.toRat =
        v * M.Scale.toRat) ∧
    (PhysicalUnitsConversionHelper exactFloat Km M).map (fun c => c.Result.num) = .ok 1 ∧
    (PhysicalUnitsConversionHelper exactFloat Km M).map (fun c => c.Result.den) = .ok 1000 :=
  ⟨by decide, conversion_preserves_si_value exactFloat Km M (by decide) (by decide) (by decide),
    by decide, by decide⟩

/-- C6: identity law. For every well-formed unit `U` the conversion from `U` to `U`
exists, its exact ratio `Result` is 1/1, and `kFloatRatio` is the float 1 divided by
the float 1, which is the float 1 in every float type where that division is exact. -/
theorem conversion_identity (F : FloatType) (U : PhysicalUnits) (h : U.WellFormed) :
    ∃ c, PhysicalUnitsConversionHelper F U U = .ok c ∧
      c.Result = ⟨1, 1⟩ ∧ c.Result.num = 1 ∧ c.Result.den = 1 ∧
      c.kFloatRatio = F.div (F.cast 1) (F.cast 1) ∧
      (F.div (F.cast 1) (F.cast 1) = F.cast 1 → c.kFloatRatio = F.cast 1) := by
  have e : U.Scale.toRat / U.Scale.toRat = 1 := div_self h.toRat_ne_zero
  rw [conversion_eq F U U rfl h.1 h.1 h.2.1, e, if_pos fits_one]
  refine ⟨_, rfl, ?_, ?_, ?_, ?_, ?_⟩
  · simp
  · simp only [Rat.num_one, Rat.den_one, Nat.cast_one]; decide
  · simp only [Rat.num_one, Rat.den_one, Nat.cast_one]; decide
  · simp
  · intro hF
    simpa using hF

/-- Witness of C6: the kilometre converted to itself. -/
theorem conversion_identity_witness :
    Km.WellFormed ∧
    (∃ c, PhysicalUnitsConversionHelper exactFloat Km Km = .ok c ∧
      c.Result = ⟨1, 1⟩ ∧ c.Result.num = 1 ∧ c.Result.den = 1 ∧
      c.kFloatRatio = exactFloat.div (exactFloat.cast 1) (exactFloat.cast 1) ∧
      (exactFloat.div (exactFloat.cast 1) (exactFloat.cast 1) = exactFloat.cast 1 →
        c.kFloatRatio = exactFloat.cast 1)) ∧
    (PhysicalUnitsConversionHelper exactFloat Km Km).map (fun c => c.kFloatRatio) =
      .ok (1 : ℚ) :=
  ⟨by decide, conversion_identity exactFloat Km (by decide),
    by rw [show (1 : ℚ) = (1 : ℚ) / 1 from (div_one _).symm]; rfl⟩

/-! ## Composition of units -/

/-- C4: for well-formed units `A` and `B`, `MultiplyPhysicalUnits<A, B>::Result`
exists exactly when the lowest terms of the product of the scales are representable;
its dimension is then the dimension product (component-wise sum of the exponents)
and its scale is the exact rational product `A.Scale * B.Scale` in lowest terms. -/
theorem multiply_result (A B : PhysicalUnits) (hA : A.WellFormed) (hB : B.WellFormed) :
    ((∃ u, MultiplyPhysicalUnits A B = .ok u) ↔ fits (A.Scale.toRat * B.Scale.toRat)) ∧
    ∀ u, MultiplyPhysicalUnits A B = .ok u →
      u.PhysicalDimensions =
        MultiplyPhysicalDimensions A.PhysicalDimensions B.PhysicalDimensions ∧
      u.PhysicalDimensions =
        ⟨A.PhysicalDimensions.length + B.PhysicalDimensions.length,
         A.PhysicalDimensions.mass + B.PhysicalDimensions.mass,
         A.PhysicalDimensions.time + B.PhysicalDimensions.time,
         A.PhysicalDimensions.current + B.PhysicalDimensions.current,
         A.PhysicalDimensions.temperature + B.PhysicalDimensions.temperature,
         A.PhysicalDimensions.amount + B.PhysicalDimensions.amount,
         A.PhysicalDimensions.luminosity + B.PhysicalDimensions.luminosity⟩ ∧
      u.Scale.toRat = A.Scale.toRat * B.Scale.toRat ∧
      u.Scale.num = (A.Scale.toRat * B.Scale.toRat).num ∧
      u.Scale.den = ((A.Scale.toRat * B.Scale.toRat).den : Int) := by
  rw [multiply_eq A B hA.1 hB.1]
  by_cases hf : fits (A.Scale.toRat * B.Scale.toRat)
  · rw [if_pos hf]
    refine ⟨⟨fun _ => hf, fun _ => ⟨_, rfl⟩⟩, fun u hu => ?_⟩
    injection hu with hu
    subst hu
    simp only [Ratio.toRat_mk_num_den, Ratio.num_mk_num_den, Ratio.den_mk_num_den,
      MultiplyPhysicalDimensions, and_self]
  · rw [if_neg hf]
    refine ⟨⟨fun ⟨u, hu⟩ => ?_, fun h => absurd h hf⟩, fun u hu => ?_⟩ <;> cases hu

/-- Witness of C4: `(length, 1/1)` times `(length, 1/1)` is `(area, 1/1)`. -/
theorem multiply_result_witness :
    (M.WellFormed ∧ M.WellFormed) ∧
    (((∃ u, MultiplyPhysicalUnits M M = .ok u) ↔ fits (M.Scale.toRat * M.Scale.toRat)) ∧
    ∀ u, MultiplyPhysicalUnits M M = .ok u →
      u.PhysicalDimensions =
        MultiplyPhysicalDimensions M.PhysicalDimensions M.PhysicalDimensions ∧
      u.PhysicalDimensions =
        ⟨M.PhysicalDimensions.length + M.PhysicalDimensions.length,
         M.PhysicalDimensions.mass + M.PhysicalDimensions.mass,
         M.PhysicalDimensions.time + M.PhysicalDimensions.time,
         M.PhysicalDimensions.current + M.PhysicalDimensions.current,
         M.PhysicalDimensions.temperature + M.PhysicalDimensions.temperature,
         M.PhysicalDimensions.amount + M.PhysicalDimensions.amount,
         M.PhysicalDimensions.luminosity + M.PhysicalDimensions.luminosity⟩ ∧
      u.Scale.toRat = M.Scale.toRat * M.Scale.toRat ∧
      u.Scale.num = (M.Scale.toRat * M.Scale.toRat).num ∧
      u.Scale.den = ((M.Scale.toRat * M.Scale.toRat).den : Int)) ∧
    MultiplyPhysicalUnits M M = .ok ⟨areaDim, ⟨1, 1⟩⟩ :=
  ⟨by decide, multiply_result M M (by decide) (by decide), by decide⟩

/-- C5: for well-formed units `A` and `B`, `DividePhysicalUnits<A, B>::Result` exists
exactly when the lowest terms of the quotient of the scales are representable; its
dimension is then the dimension quotient (component-wise difference of the exponents,
`A` minus `B`) and its scale is the exact rational quotient `A.Scale / B.Scale`
(left operand over right operand) in lowest terms. -/
theorem divide_result (A B : PhysicalUnits) (hA : A.WellFormed) (hB : B.WellFormed) :
    ((∃ u, DividePhysicalUnits A B = .ok u) ↔ fits (A.Scale.toRat / B.Scale.toRat)) ∧
    ∀ u, DividePhysicalUnits A B = .ok u →
      u.PhysicalDimensions =
        DividePhysicalDimensions A.PhysicalDimensions B.PhysicalDimensions ∧
      u.PhysicalDimensions =
        ⟨A.PhysicalDimensions.length - B.PhysicalDimensions.length,
         A.PhysicalDimensions.mass - B.PhysicalDimensions.mass,
         A.PhysicalDimensions.time - B.PhysicalDimensions.time,
         A.PhysicalDimensions.current - B.PhysicalDimensions.current,
         A.PhysicalDimensions.temperature - B.PhysicalDimensions.temperature,
         A.PhysicalDimensions.amount - B.PhysicalDimensions.amount,
         A.PhysicalDimensions.luminosity - B.PhysicalDimensions.luminosity⟩ ∧
      u.Scale.toRat = A.Scale.toRat / B.Scale.toRat ∧
      u.Scale.num = (A.Scale.toRat / B.Scale.toRat).num ∧
      u.Scale.den = ((A.Scale.toRat / B.Scale.toRat).den : Int) := by
  rw [divide_eq A B hA.1 hB.1 hB.2.1]
  by_cases hf : fits (A.Scale.toRat / B.Scale.toRat)
  · rw [if_pos hf]
    refine ⟨⟨fun _ => hf, fun _ => ⟨_, rfl⟩⟩, fun u hu => ?_⟩
    injection hu with hu
    subst hu
    simp only [Ratio.toRat_mk_num_den, Ratio.num_mk_num_den, Ratio.den_mk_num_den,
      DividePhysicalDimensions, and_self]
  · rw [if_neg hf]
    refine ⟨⟨fun ⟨u, hu⟩ => ?_, fun h => absurd h hf⟩, fun u hu => ?_⟩ <;> cases hu

/-- Witness of C5: an area in square kilometres divided by a length in millimetres,
and the other way round. -/
theorem divide_result_witness :
    ((⟨areaDim, ⟨1000000, 1⟩⟩ : PhysicalUnits).WellFormed ∧ Mm.WellFormed) ∧
    DividePhysicalUnits ⟨areaDim, ⟨1000000, 1⟩⟩ Mm = .ok ⟨lengthDim, ⟨1000000000, 1⟩⟩ ∧
    DividePhysicalUnits Mm ⟨areaDim, ⟨1000000, 1⟩⟩ =
      .ok ⟨⟨-1, 0, 0, 0, 0, 0, 0⟩, ⟨1, 1000000000⟩⟩ ∧
    ((∃ u, DividePhysicalUnits ⟨areaDim, ⟨1000000, 1⟩⟩ Mm = .ok u) ↔
      fits ((⟨areaDim, ⟨1000000, 1⟩⟩ : PhysicalUnits).Scale.toRat / Mm.Scale.toRat)) :=
  ⟨by decide, by decide, by decide,
    (divide_result ⟨areaDim, ⟨1000000, 1⟩⟩ Mm (by decide) (by decide)).1⟩

/-- C8: round-trip law. For well-formed units `A` and `B`, whenever the product
`MultiplyPhysicalUnits<A, B>::Result` exists (which it does when the lowest terms of the
product of the scales are representable), dividing it by `B` succeeds and gives a unit
with the dimension of `A` and the scale of `A`: the same `num`, the same `den`, the
same rational value, written as `A::Scale::type`. -/
theorem multiply_divide_round_trip (A B : PhysicalUnits)
    (hA : A.WellFormed) (hB : B.WellFormed) :
    (fits (A.Scale.toRat * B.Scale.toRat) → ∃ P, MultiplyPhysicalUnits A B = .ok P) ∧
    ∀ P, MultiplyPhysicalUnits A B = .ok P →
      ∃ u, DividePhysicalUnits P B = .ok u ∧
        u.PhysicalDimensions = A.PhysicalDimensions ∧
        u.Scale.num = A.Scale.num ∧ u.Scale.den = A.Scale.den ∧
        u.Scale.toRat = A.Scale.toRat ∧ u.Scale = A.Scale.type := by
  rw [multiply_eq A B hA.1 hB.1]
  by_cases hf : fits (A.Scale.toRat * B.Scale.toRat)
  · rw [if_pos hf]
    refine ⟨fun _ => ⟨_, rfl⟩, fun P hP => ?_⟩
    injection hP with hP
    subst hP
    have hq : A.Scale.toRat * B.Scale.toRat / B.Scale.toRat = A.Scale.toRat :=
      mul_div_cancel_right₀ _ hB.toRat_ne_zero
    rw [divide_eq _ B (Ratio.valid_mk_of_fits _ hf) hB.1 hB.2.1]
    simp only [Ratio.toRat_mk_num_den, hq, if_pos (fits_of_valid _ hA.1)]
    refine ⟨_, rfl, divide_multiply_dimensions _ _, ?_, ?_, ?_, ?_⟩
    · simp only [Ratio.num_mk_num_den, Ratio.num_eq_toRat_num A.Scale]
    · simp only [Ratio.den_mk_num_den, Ratio.den_eq_toRat_den A.Scale hA.1.1]
    · simp only [Ratio.toRat_mk_num_den]
    · simp only [Ratio.type, Ratio.num_eq_toRat_num A.Scale, Ratio.den_eq_toRat_den A.Scale hA.1.1]
  · rw [if_neg hf]
    exact ⟨fun h => absurd h hf, fun P hP => by cases hP⟩

/-- Witness of C8: the kilometre times the second, divided by the second. -/
theorem multiply_divide_round_trip_witness :
    (Km.WellFormed ∧ S.WellFormed) ∧
    ((fits (Km.Scale.toRat * S.Scale.toRat) → ∃ P, MultiplyPhysicalUnits Km S = .ok P) ∧
    ∀ P, MultiplyPhysicalUnits Km S = .ok P →
      ∃ u, DividePhysicalUnits P S = .ok u ∧
        u.PhysicalDimensions = Km.PhysicalDimensions ∧
        u.Scale.num = Km.Scale.num ∧ u.Scale.den = Km.Scale.den ∧
        u.Scale.toRat = Km.Scale.toRat ∧ u.Scale = Km.Scale.type) ∧
    MultiplyPhysicalUnits Km S = .ok ⟨⟨1, 0, 1, 0, 0, 0, 0⟩, ⟨1000, 1⟩⟩ ∧
    DividePhysicalUnits ⟨⟨1, 0, 1, 0, 0, 0, 0⟩, ⟨1000, 1⟩⟩ S = .ok Km :=
  ⟨by decide, multiply_divide_round_trip Km S (by decide) (by decide), by decide, by decide⟩

/-! ## Malformed scales -/

/-- C9, counterexample: the unit `(length, 0/1)` is not rejected. Its scale is a valid
`std::ratio` with numerator 0, and it is multiplied, divided and converted from like
any other unit; the unit of length with scale `std::ratio<1, -2>`, a negative denominator, is accepted too
and its scale is read as -1/2. -/
theorem zero_scale_unit_is_accepted :
    (⟨0, 1⟩ : Ratio).instantiate = .ok ⟨0, 1⟩ ∧ (⟨0, 1⟩ : Ratio).num = 0 ∧
    MultiplyPhysicalUnits ⟨lengthDim, ⟨0, 1⟩⟩ M = .ok ⟨areaDim, ⟨0, 1⟩⟩ ∧
    DividePhysicalUnits ⟨lengthDim, ⟨0, 1⟩⟩ S = .ok ⟨⟨1, 0, -1, 0, 0, 0, 0⟩, ⟨0, 1⟩⟩ ∧
    (PhysicalUnitsConversionHelper exactFloat M ⟨lengthDim, ⟨0, 1⟩⟩).map (fun c => c.Result) =
      .ok ⟨0, 1⟩ ∧
    (⟨1, -2⟩ : Ratio).instantiate = .ok ⟨1, -2⟩ ∧
    MultiplyPhysicalUnits ⟨lengthDim, ⟨1, -2⟩⟩ M = .ok ⟨areaDim, ⟨-1, 2⟩⟩ := by
  decide

/-- C9, amended: `PhysicalUnits` checks nothing itself. The scale `std::ratio<N, D>` of a
unit is accepted exactly when `D` is not 0 and the absolute values of `N` and `D` are
representable; with `D = 0` every product with the unit is rejected for the zero
denominator; an accepted scale has `den > 0` with the sign on `num`, has `num = 0`
exactly when `N = 0`, and the unit is usable: its product with the dimensionless unit
of scale 1/1 is the unit itself with its scale in lowest terms. -/
theorem scale_rejected_iff (dims : PhysicalDimensions) (N D : Int) :
    ((⟨N, D⟩ : Ratio).instantiate = .ok ⟨N, D⟩ ↔
      D ≠ 0 ∧ representable N ∧ representable D) ∧
    (D = 0 → ∀ B, MultiplyPhysicalUnits ⟨dims, ⟨N, D⟩⟩ B = .error .zeroDenominator) ∧
    (D ≠ 0 → representable N → representable D →
      0 < (⟨N, D⟩ : Ratio).den ∧ ((⟨N, D⟩ : Ratio).num = 0 ↔ N = 0) ∧
      MultiplyPhysicalUnits ⟨dims, ⟨N, D⟩⟩ ⟨⟨0, 0, 0, 0, 0, 0, 0⟩, ⟨1, 1⟩⟩ =
        .ok ⟨dims, ⟨(⟨N, D⟩ : Ratio).num, (⟨N, D⟩ : Ratio).den⟩⟩) := by
  refine ⟨⟨fun h => ?_, fun h => Ratio.instantiate_of_valid _ h⟩, fun hD B => ?_,
    fun hD hN hD' => ⟨Ratio.den_pos _ hD, ?_, ?_⟩⟩
  · by_contra hv
    obtain ⟨e, he⟩ := Ratio.instantiate_of_not_valid ⟨N, D⟩ hv
    rw [he] at h
    cases h
  · unfold MultiplyPhysicalUnits ratio_multiply Ratio.instantiate
    simp only [if_pos hD]
  · rw [Ratio.num_eq_zero_iff]
    unfold Ratio.toRat
    simp only [div_eq_zero_iff, Int.cast_eq_zero, hD, or_false]
  · have hv : (⟨N, D⟩ : Ratio).Valid := ⟨hD, hN, hD'⟩
    have h1 : (⟨1, 1⟩ : Ratio).Valid := by decide
    have e1 : (⟨1, 1⟩ : Ratio).toRat = 1 := by unfold Ratio.toRat; simp
    rw [multiply_eq _ _ hv h1]
    simp only [e1, mul_one, if_pos (fits_of_valid _ hv)]
    rw [Ratio.num_eq_toRat_num ⟨N, D⟩, Ratio.den_eq_toRat_den ⟨N, D⟩ hD]
    cases dims
    simp [MultiplyPhysicalDimensions]

/-- C10: when the scale numerator of `Z` is 0, `DividePhysicalUnits<A, Z>` yields no
result unit and `PhysicalUnitsConversionHelper` with target `Z` yields no conversion
ratio, for every unit `A`; when both scales are valid ratios the diagnostic is the
division by zero of `std::ratio_divide`. -/
theorem divide_by_zero_scale (F : FloatType) (A Z : PhysicalUnits) (hZ : Z.Scale.num = 0) :
    (∀ u, DividePhysicalUnits A Z ≠ .ok u) ∧
    (∀ c, PhysicalUnitsConversionHelper F Z A ≠ .ok c) ∧
    (A.Scale.Valid → Z.Scale.Valid →
      DividePhysicalUnits A Z = .error .divisionByZero ∧
      (Z.PhysicalDimensions = A.PhysicalDimensions →
        PhysicalUnitsConversionHelper F Z A = .error .divisionByZero)) := by
  refine ⟨fun u hu => ?_, fun c hc => ?_, fun hA hZv => ⟨?_, fun hd => ?_⟩⟩
  · unfold DividePhysicalUnits at hu
    split at hu
    · cases hu
    · next s hs => exact ratio_divide_num_zero _ _ hZ s hs
  · unfold PhysicalUnitsConversionHelper at hc
    split at hc
    · split at hc
      · cases hc
      · next s hs => exact ratio_divide_num_zero _ _ hZ s hs
    · cases hc
  · unfold DividePhysicalUnits
    rw [ratio_divide_zero _ _ hA hZv hZ]
  · unfold PhysicalUnitsConversionHelper
    rw [if_pos hd, ratio_divide_zero _ _ hA hZv hZ]

/-- Witness of C10: the metre divided by, and converted to, the unit `(length, 0/1)`. -/
theorem divide_by_zero_scale_witness :
    (⟨lengthDim, ⟨0, 1⟩⟩ : PhysicalUnits).Scale.num = 0 ∧
    DividePhysicalUnits M ⟨lengthDim, ⟨0, 1⟩⟩ = .error .divisionByZero ∧
    PhysicalUnitsConversionHelper exactFloat ⟨lengthDim, ⟨0, 1⟩⟩ M = .error .divisionByZero :=
  ⟨by decide,
    ((divide_by_zero_scale exactFloat M ⟨lengthDim, ⟨0, 1⟩⟩ (by decide)).2.2
      (by decide) (by decide)).1,
    ((divide_by_zero_scale exactFloat M ⟨lengthDim, ⟨0, 1⟩⟩ (by decide)).2.2
      (by decide) (by decide)).2 (by decide)⟩

/-! ## Inversion lemmas -/

theorem rat_reduced (q : ℚ) : Int.gcd q.num (q.den : Int) = 1 := by
  show Nat.gcd q.num.natAbs (q.den : Int).natAbs = 1
  rw [Int.natAbs_ofNat]
  exact q.reduced

theorem Ratio.reduced_mk (q : ℚ) (hq : q ≠ 0) : Ratio.Reduced ⟨q.num, (q.den : Int)⟩ :=
  ⟨rat_reduced q, Int.natCast_pos.mpr q.den_pos, Rat.num_ne_zero.mpr hq⟩

theorem wellFormed_mk (d : PhysicalDimensions) (q : ℚ) (hq : q ≠ 0) (hf : fits q) :
    (⟨d, ⟨q.num, (q.den : Int)⟩⟩ : PhysicalUnits).WellFormed := by
  refine ⟨Ratio.valid_mk_of_fits q hf, ?_, ?_⟩
  · show Ratio.num ⟨q.num, (q.den : Int)⟩ ≠ 0
    rw [Ratio.num_mk_num_den]; exact Rat.num_ne_zero.mpr hq
  · show 0 < Ratio.den ⟨q.num, (q.den : Int)⟩
    rw [Ratio.den_mk_num_den]; exact_mod_cast q.den_pos

theorem ratio_multiply_ok_valid (R1 R2 r : Ratio) (h : ratio_multiply R1 R2 = .ok r) :
    R1.Valid ∧ R2.Valid := by
  by_cases h1 : R1.Valid
  · by_cases h2 : R2.Valid
    · exact ⟨h1, h2⟩
    · obtain ⟨e, he⟩ := Ratio.instantiate_of_not_valid R2 h2
      unfold ratio_multiply at h
      rw [Ratio.instantiate_of_valid R1 h1, he] at h
      cases h
  · obtain ⟨e, he⟩ := Ratio.instantiate_of_not_valid R1 h1
    unfold ratio_multiply at h
    rw [he] at h
    cases h

theorem ratio_divide_ok_valid (R1 R2 r : Ratio) (h : ratio_divide R1 R2 = .ok r) :
    R1.Valid ∧ R2.Valid := by
  by_cases h1 : R1.Valid
  · by_cases h2 : R2.Valid
    · exact ⟨h1, h2⟩
    · obtain ⟨e, he⟩ := Ratio.instantiate_of_not_valid R2 h2
      unfold ratio_divide at h
      rw [Ratio.instantiate_of_valid R1 h1, he] at h
      cases h
  · obtain ⟨e, he⟩ := Ratio.instantiate_of_not_valid R1 h1
    unfold ratio_divide at h
    rw [he] at h
    cases h

theorem multiply_ok (A B P : PhysicalUnits) (hA : A.Scale.Valid) (hB : B.Scale.Valid)
    (h : MultiplyPhysicalUnits A B = .ok P) :
    fits (A.Scale.toRat * B.Scale.toRat) ∧
    P = ⟨MultiplyPhysicalDimensions A.PhysicalDimensions B.PhysicalDimensions,
         ⟨(A.Scale.toRat * B.Scale.toRat).num, ((A.Scale.toRat * B.Scale.toRat).den : Int)⟩⟩ := by
  rw [multiply_eq A B hA hB] at h
  by_cases hf : fits (A.Scale.toRat * B.Scale.toRat)
  · rw [if_pos hf] at h
    injection h with h
    exact ⟨hf, h.symm⟩
  · rw [if_neg hf] at h
    cases h

theorem divide_ok (A B P : PhysicalUnits) (hA : A.Scale.Valid) (hB : B.Scale.Valid)
    (hn : B.Scale.num ≠ 0) (h : DividePhysicalUnits A B = .ok P) :
    fits (A.Scale.toRat / B.Scale.toRat) ∧
    P = ⟨DividePhysicalDimensions A.PhysicalDimensions B.PhysicalDimensions,
         ⟨(A.Scale.toRat / B.Scale.toRat).num, ((A.Scale.toRat / B.Scale.toRat).den : Int)⟩⟩ := by
  rw [divide_eq A B hA hB hn] at h
  by_cases hf : fits (A.Scale.toRat / B.Scale.toRat)
  · rw [if_pos hf] at h
    injection h with h
    exact ⟨hf, h.symm⟩
  · rw [if_neg hf] at h
    cases h

theorem conversion_ok (F : FloatType) (Lhs Rhs : PhysicalUnits) (c : ConversionHelper F)
    (hd : Lhs.PhysicalDimensions = Rhs.PhysicalDimensions)
    (hL : Lhs.Scale.Valid) (hR : Rhs.Scale.Valid) (hn : Lhs.Scale.num ≠ 0)
    (h : PhysicalUnitsConversionHelper F Lhs Rhs = .ok c) :
    fits (Rhs.Scale.toRat / Lhs.Scale.toRat) ∧
    c.Result = ⟨(Rhs.Scale.toRat / Lhs.Scale.toRat).num,
                ((Rhs.Scale.toRat / Lhs.Scale.toRat).den : Int)⟩ := by
  rw [conversion_eq F Lhs Rhs hd hL hR hn] at h
  by_cases hf : fits (Rhs.Scale.toRat / Lhs.Scale.toRat)
  · rw [if_pos hf] at h
    injection h with h
    subst h
    exact ⟨hf, rfl⟩
  · rw [if_neg hf] at h
    cases h

theorem conversion_map_result (F : FloatType) (Lhs Rhs : PhysicalUnits)
    (hd : Lhs.PhysicalDimensions = Rhs.PhysicalDimensions) :
    (PhysicalUnitsConversionHelper F Lhs Rhs).map (fun c => c.Result) =
      ratio_divide Rhs.Scale Lhs.Scale := by
  unfold PhysicalUnitsConversionHelper
  rw [if_pos hd]
  cases ratio_divide Rhs.Scale Lhs.Scale <;> rfl

theorem conversion_ok_dimensions (F : FloatType) (Lhs Rhs : PhysicalUnits)
    (c : ConversionHelper F) (h : PhysicalUnitsConversionHelper F Lhs Rhs = .ok c) :
    Lhs.PhysicalDimensions = Rhs.PhysicalDimensions := by
  by_contra hd
  unfold PhysicalUnitsConversionHelper at h
  rw [if_neg hd] at h
  cases h

/-! ## Invariants and failure modes -/

/-- C11: well-formedness is an invariant of the algebra. For well-formed units `A` and
`B`, every result the algebra yields is well-formed and written in lowest terms: the
scale of `MultiplyPhysicalUnits<A, B>::Result`, the scale of
`DividePhysicalUnits<A, B>::Result` and the ratio
`PhysicalUnitsConversionHelper<A, B>::Result` have `gcd(|num|, den) = 1`, `den > 0` and
`num ≠ 0`, whatever the sign of the inputs and however they are written; the results
exist as soon as the lowest terms are representable. -/
theorem results_well_formed (F : FloatType) (A B : PhysicalUnits)
    (hA : A.WellFormed) (hB : B.WellFormed) :
    (∀ u, MultiplyPhysicalUnits A B = .ok u →
      u.WellFormed ∧ u.Scale.Reduced ∧ u.Scale.num = u.Scale.N ∧ u.Scale.den = u.Scale.D) ∧
    (∀ u, DividePhysicalUnits A B = .ok u →
      u.WellFormed ∧ u.Scale.Reduced ∧ u.Scale.num = u.Scale.N ∧ u.Scale.den = u.Scale.D) ∧
    (∀ c, PhysicalUnitsConversionHelper F A B = .ok c →
      c.Result.Valid ∧ c.Result.Reduced ∧ c.Result.num = c.Result.N ∧
        c.Result.den = c.Result.D) ∧
    (fits (A.Scale.toRat * B.Scale.toRat) → ∃ u, MultiplyPhysicalUnits A B = .ok u) ∧
    (fits (A.Scale.toRat / B.Scale.toRat) → ∃ u, DividePhysicalUnits A B = .ok u) ∧
    (A.PhysicalDimensions = B.PhysicalDimensions → fits (B.Scale.toRat / A.Scale.toRat) →
      ∃ c, PhysicalUnitsConversionHelper F A B = .ok c) := by
  have ha := hA.toRat_ne_zero
  have hb := hB.toRat_ne_zero
  refine ⟨fun u hu => ?_, fun u hu => ?_, fun c hc => ?_, fun hf => ?_, fun hf => ?_,
    fun hd hf => ?_⟩
  · obtain ⟨hf, rfl⟩ := multiply_ok A B u hA.1 hB.1 hu
    exact ⟨wellFormed_mk _ _ (mul_ne_zero ha hb) hf, Ratio.reduced_mk _ (mul_ne_zero ha hb),
      Ratio.num_mk_num_den _, Ratio.den_mk_num_den _⟩
  · obtain ⟨hf, rfl⟩ := divide_ok A B u hA.1 hB.1 hB.2.1 hu
    exact ⟨wellFormed_mk _ _ (div_ne_zero ha hb) hf, Ratio.reduced_mk _ (div_ne_zero ha hb),
      Ratio.num_mk_num_den _, Ratio.den_mk_num_den _⟩
  · have hd := conversion_ok_dimensions F A B c hc
    obtain ⟨hf, hr⟩ := conversion_ok F A B c hd hA.1 hB.1 hA.2.1 hc
    rw [hr]
    exact ⟨Ratio.valid_mk_of_fits _ hf, Ratio.reduced_mk _ (div_ne_zero hb ha),
      Ratio.num_mk_num_den _, Ratio.den_mk_num_den _⟩
  · rw [multiply_eq A B hA.1 hB.1, if_pos hf]; exact ⟨_, rfl⟩
  · rw [divide_eq A B hA.1 hB.1 hB.2.1, if_pos hf]; exact ⟨_, rfl⟩
  · rw [conversion_eq F A B hd hA.1 hB.1 hA.2.1, if_pos hf]; exact ⟨_, rfl⟩

/-- Witness of C11: a negative scale `-2/4` and a scale `6/9`, neither in lowest terms;
the product is `-1/3`, the quotient `-3/4` and the conversion ratio `-4/3`. -/
theorem results_well_formed_witness :
    ((⟨lengthDim, ⟨-2, 4⟩⟩ : PhysicalUnits).WellFormed ∧
      (⟨lengthDim, ⟨6, 9⟩⟩ : PhysicalUnits).WellFormed) ∧
    MultiplyPhysicalUnits ⟨lengthDim, ⟨-2, 4⟩⟩ ⟨lengthDim, ⟨6, 9⟩⟩ =
      .ok ⟨areaDim, ⟨-1, 3⟩⟩ ∧
    DividePhysicalUnits ⟨lengthDim, ⟨-2, 4⟩⟩ ⟨lengthDim, ⟨6, 9⟩⟩ =
      .ok ⟨dimensionless, ⟨-3, 4⟩⟩ ∧
    (PhysicalUnitsConversionHelper exactFloat ⟨lengthDim, ⟨-2, 4⟩⟩
      ⟨lengthDim, ⟨6, 9⟩⟩).map (fun c => c.Result) = .ok ⟨-4, 3⟩ ∧
    (∀ u, MultiplyPhysicalUnits ⟨lengthDim, ⟨-2, 4⟩⟩ ⟨lengthDim, ⟨6, 9⟩⟩ = .ok u →
      u.WellFormed ∧ u.Scale.Reduced ∧ u.Scale.num = u.Scale.N ∧ u.Scale.den = u.Scale.D) :=
  ⟨by decide, by decide, by decide, by decide,
    (results_well_formed exactFloat ⟨lengthDim, ⟨-2, 4⟩⟩ ⟨lengthDim, ⟨6, 9⟩⟩
      (by decide) (by decide)).1⟩

/-- C12, counterexample: well-formed units whose product and whose quotient are
rejected. The scale `INTMAX_MAX/1` times the scale `2/1`, and the same scale divided
by `1/2`, both overflow `intmax_t`. -/
theorem multiply_divide_can_overflow :
    ((⟨lengthDim, ⟨INTMAX_MAX, 1⟩⟩ : PhysicalUnits).WellFormed ∧
      (⟨lengthDim, ⟨2, 1⟩⟩ : PhysicalUnits).WellFormed ∧
      (⟨lengthDim, ⟨1, 2⟩⟩ : PhysicalUnits).WellFormed) ∧
    MultiplyPhysicalUnits ⟨lengthDim, ⟨INTMAX_MAX, 1⟩⟩ ⟨lengthDim, ⟨2, 1⟩⟩ =
      .error .overflow ∧
    DividePhysicalUnits ⟨lengthDim, ⟨INTMAX_MAX, 1⟩⟩ ⟨lengthDim, ⟨1, 2⟩⟩ =
      .error .overflow := by
  decide

/-- C12, amended: for well-formed units `A` and `B`, `MultiplyPhysicalUnits<A, B>`
yields a result exactly when the lowest terms of the product of the scales are
representable in `intmax_t`, and `DividePhysicalUnits<A, B>` exactly when the lowest
terms of the quotient are; otherwise the instantiation is rejected for overflow, and
for no other reason: a well-formed divisor has no zero numerator. -/
theorem multiply_divide_succeed_iff (A B : PhysicalUnits)
    (hA : A.WellFormed) (hB : B.WellFormed) :
    ((∃ u, MultiplyPhysicalUnits A B = .ok u) ↔ fits (A.Scale.toRat * B.Scale.toRat)) ∧
    ((∃ u, DividePhysicalUnits A B = .ok u) ↔ fits (A.Scale.toRat / B.Scale.toRat)) ∧
    (∀ e, MultiplyPhysicalUnits A B = .error e → e = .overflow) ∧
    (∀ e, DividePhysicalUnits A B = .error e → e = .overflow) := by
  rw [multiply_eq A B hA.1 hB.1, divide_eq A B hA.1 hB.1 hB.2.1]
  refine ⟨?_, ?_, ?_, ?_⟩
  · by_cases hf : fits (A.Scale.toRat * B.Scale.toRat)
    · rw [if_pos hf]; exact ⟨fun _ => hf, fun _ => ⟨_, rfl⟩⟩
    · rw [if_neg hf]; exact ⟨fun ⟨u, hu⟩ => (by cases hu), fun h => absurd h hf⟩
  · by_cases hf : fits (A.Scale.toRat / B.Scale.toRat)
    · rw [if_pos hf]; exact ⟨fun _ => hf, fun _ => ⟨_, rfl⟩⟩
    · rw [if_neg hf]; exact ⟨fun ⟨u, hu⟩ => (by cases hu), fun h => absurd h hf⟩
  · intro e he
    by_cases hf : fits (A.Scale.toRat * B.Scale.toRat)
    · rw [if_pos hf] at he; cases he
    · rw [if_neg hf] at he; injection he with he; exact he.symm
  · intro e he
    by_cases hf : fits (A.Scale.toRat / B.Scale.toRat)
    · rw [if_pos hf] at he; cases he
    · rw [if_neg hf] at he; injection he with he; exact he.symm

/-- Witness of C12 as amended: the kilometre and the second. -/
theorem multiply_divide_succeed_iff_witness :
    (Km.WellFormed ∧ S.WellFormed) ∧
    (((∃ u, MultiplyPhysicalUnits Km S = .ok u) ↔ fits (Km.Scale.toRat * S.Scale.toRat)) ∧
    ((∃ u, DividePhysicalUnits Km S = .ok u) ↔ fits (Km.Scale.toRat / S.Scale.toRat)) ∧
    (∀ e, MultiplyPhysicalUnits Km S = .error e → e = .overflow) ∧
    (∀ e, DividePhysicalUnits Km S = .error e → e = .overflow)) ∧
    DividePhysicalUnits Km S = .ok ⟨⟨1, 0, -1, 0, 0, 0, 0⟩, ⟨1000, 1⟩⟩ :=
  ⟨by decide, multiply_divide_succeed_iff Km S (by decide) (by decide), by decide⟩

theorem multiply_ok_valid (A B u : PhysicalUnits) (h : MultiplyPhysicalUnits A B = .ok u) :
    A.Scale.Valid ∧ B.Scale.Valid := by
  unfold MultiplyPhysicalUnits at h
  split at h
  · cases h
  · next s hs => exact ratio_multiply_ok_valid _ _ s hs

theorem multiply_map_scale (A B : PhysicalUnits) :
    (MultiplyPhysicalUnits A B).map (fun u => u.Scale) = ratio_multiply A.Scale B.Scale := by
  unfold MultiplyPhysicalUnits
  cases ratio_multiply A.Scale B.Scale <;> rfl

theorem divide_map_scale (A B : PhysicalUnits) :
    (DividePhysicalUnits A B).map (fun u => u.Scale) = ratio_divide A.Scale B.Scale := by
  unfold DividePhysicalUnits
  cases ratio_divide A.Scale B.Scale <;> rfl

theorem reciprocal_eq (b : Ratio) (hb : b.Valid) (hn : b.num ≠ 0) :
    ScaleRatio.reciprocal b = .ok ⟨(b.toRat)⁻¹.num, ((b.toRat)⁻¹.den : Int)⟩ := by
  have hq : b.toRat ≠ 0 := fun h0 => hn ((Ratio.num_eq_zero_iff b).mpr h0)
  unfold ScaleRatio.reciprocal
  rw [Ratio.instantiate_of_valid b hb]
  simp only [if_neg hn]
  rw [rat_inv_num, rat_inv_den _ hq, Ratio.num_eq_toRat_num b, Ratio.den_eq_toRat_den b hb.1,
    Int.abs_eq_natAbs]

/-- C13: scale multiplication never wraps. Whenever `MultiplyPhysicalUnits<A, B>` yields
a result, its scale is the exact lowest-terms form of
`(A.num * B.num) / (A.den * B.den)` over the integers: the cross products agree, the
numerator and denominator are coprime, the denominator is positive and both are
representable; when the lowest terms of the product do not fit `intmax_t` there is no
result, and for valid scales the diagnostic is the overflow. -/
theorem multiply_never_wraps (A B : PhysicalUnits) :
    (∀ u, MultiplyPhysicalUnits A B = .ok u →
      u.Scale.N * (A.Scale.den * B.Scale.den) = A.Scale.num * B.Scale.num * u.Scale.D ∧
      Int.gcd u.Scale.N u.Scale.D = 1 ∧ 0 < u.Scale.D ∧
      u.Scale.num = u.Scale.N ∧ u.Scale.den = u.Scale.D ∧
      representable u.Scale.N ∧ representable u.Scale.D ∧
      u.Scale.toRat = A.Scale.toRat * B.Scale.toRat) ∧
    (¬ fits (A.Scale.toRat * B.Scale.toRat) → ∀ u, MultiplyPhysicalUnits A B ≠ .ok u) ∧
    (A.Scale.Valid → B.Scale.Valid → ¬ fits (A.Scale.toRat * B.Scale.toRat) →
      MultiplyPhysicalUnits A B = .error .overflow) := by
  refine ⟨fun u hu => ?_, fun hf u hu => ?_, fun hA hB hf => ?_⟩
  · obtain ⟨hA, hB⟩ := multiply_ok_valid A B u hu
    obtain ⟨hf, rfl⟩ := multiply_ok A B u hA hB hu
    refine ⟨?_, rat_reduced _, Int.natCast_pos.mpr (Rat.den_pos _), Ratio.num_mk_num_den _,
      Ratio.den_mk_num_den _, hf.1, hf.2, Ratio.toRat_mk_num_den _⟩
    have hda : (A.Scale.den : ℚ) ≠ 0 := by exact_mod_cast (Ratio.den_pos _ hA.1).ne.symm
    have hdb : (B.Scale.den : ℚ) ≠ 0 := by exact_mod_cast (Ratio.den_pos _ hB.1).ne.symm
    have e : ((A.Scale.toRat * B.Scale.toRat).num : ℚ) * ((A.Scale.den : ℚ) * B.Scale.den) =
        (A.Scale.num : ℚ) * B.Scale.num * ((A.Scale.toRat * B.Scale.toRat).den : ℚ) := by
      rw [← Rat.mul_den_eq_num (A.Scale.toRat * B.Scale.toRat),
        ← Ratio.value_eq_toRat A.Scale hA.1, ← Ratio.value_eq_toRat B.Scale hB.1]
      field_simp
    exact_mod_cast e
  · obtain ⟨hA, hB⟩ := multiply_ok_valid A B u hu
    exact hf (multiply_ok A B u hA hB hu).1
  · rw [multiply_eq A B hA hB, if_neg hf]

/-- Witness of C13: the factor 2 cancels before the product is formed, so that
`(INTMAX_MAX/2) * (2/1)` is exactly `INTMAX_MAX/1`, while `(INTMAX_MAX/1) * (3/2)`
has no representable lowest terms and is rejected. -/
theorem multiply_never_wraps_witness :
    MultiplyPhysicalUnits ⟨lengthDim, ⟨INTMAX_MAX, 2⟩⟩ ⟨lengthDim, ⟨2, 1⟩⟩ =
      .ok ⟨areaDim, ⟨INTMAX_MAX, 1⟩⟩ ∧
    MultiplyPhysicalUnits ⟨lengthDim, ⟨INTMAX_MAX, 1⟩⟩ ⟨lengthDim, ⟨3, 2⟩⟩ =
      .error .overflow ∧
    (∀ u, MultiplyPhysicalUnits ⟨lengthDim, ⟨INTMAX_MAX, 2⟩⟩ ⟨lengthDim, ⟨2, 1⟩⟩ = .ok u →
      u.Scale.N * ((⟨INTMAX_MAX, 2⟩ : Ratio).den * (⟨2, 1⟩ : Ratio).den) =
        (⟨INTMAX_MAX, 2⟩ : Ratio).num * (⟨2, 1⟩ : Ratio).num * u.Scale.D) :=
  ⟨by decide, by decide,
    fun u hu => ((multiply_never_wraps ⟨lengthDim, ⟨INTMAX_MAX, 2⟩⟩
      ⟨lengthDim, ⟨2, 1⟩⟩).1 u hu).1⟩

/-- C14: division is multiplication by the reciprocal. For units `A` and `B` with valid
scales and a non-zero numerator of `B`, the reciprocal of `B.Scale` is `B.den / B.num`
with the sign moved to the numerator, and the scale of `DividePhysicalUnits<A, B>` is
the scale that `std::ratio_multiply` gives for `A.Scale` and that reciprocal: the same
lowest-terms numerator and denominator, and the same rejection when they do not fit. -/
theorem divide_is_multiply_by_reciprocal (A B : PhysicalUnits)
    (hA : A.Scale.Valid) (hB : B.Scale.Valid) (hn : B.Scale.num ≠ 0) :
    (∃ r, ScaleRatio.reciprocal B.Scale = .ok r ∧
      r.N = Int.sign B.Scale.num * B.Scale.den ∧ r.D = |B.Scale.num| ∧
      r.toRat = (B.Scale.toRat)⁻¹ ∧
      (DividePhysicalUnits A B).map (fun u => u.Scale) = ratio_multiply A.Scale r) ∧
    (DividePhysicalUnits A B).map (fun u => u.Scale) = ScaleRatio.divide A.Scale B.Scale ∧
    ∀ u, DividePhysicalUnits A B = .ok u →
      ∃ s, ScaleRatio.divide A.Scale B.Scale = .ok s ∧
        s.num = u.Scale.num ∧ s.den = u.Scale.den := by
  have hq : B.Scale.toRat ≠ 0 := fun h0 => hn ((Ratio.num_eq_zero_iff _).mpr h0)
  have hfi : fits (B.Scale.toRat)⁻¹ := fits_inv _ hq (fits_of_valid _ hB)
  have hr := reciprocal_eq B.Scale hB hn
  have hm : (DividePhysicalUnits A B).map (fun u => u.Scale) =
      ratio_multiply A.Scale ⟨(B.Scale.toRat)⁻¹.num, ((B.Scale.toRat)⁻¹.den : Int)⟩ := by
    rw [divide_map_scale, ratio_divide_eq _ _ hA hB hn,
      ratio_multiply_eq _ _ hA (Ratio.valid_mk_of_fits _ hfi), Ratio.toRat_mk_num_den,
      div_eq_mul_inv]
  have hd : (DividePhysicalUnits A B).map (fun u => u.Scale) =
      ScaleRatio.divide A.Scale B.Scale := by
    rw [hm]; unfold ScaleRatio.divide; rw [hr]
  refine ⟨⟨_, hr, ?_, ?_, Ratio.toRat_mk_num_den _, hm⟩, hd, fun u hu => ?_⟩
  · show (B.Scale.toRat)⁻¹.num = _
    rw [rat_inv_num, Ratio.num_eq_toRat_num, Ratio.den_eq_toRat_den _ hB.1]
  · show ((B.Scale.toRat)⁻¹.den : Int) = _
    rw [rat_inv_den _ hq, Ratio.num_eq_toRat_num]
  · rw [hu] at hd
    exact ⟨u.Scale, hd.symm, rfl, rfl⟩

/-- Witness of C14: the kilometre divided by a unit of scale `-2/3`; the reciprocal is
`-3/2` and both ways give `-1500/1`. -/
theorem divide_is_multiply_by_reciprocal_witness :
    (Km.Scale.Valid ∧ (⟨timeDim, ⟨-2, 3⟩⟩ : PhysicalUnits).Scale.Valid ∧
      (⟨timeDim, ⟨-2, 3⟩⟩ : PhysicalUnits).Scale.num ≠ 0) ∧
    ScaleRatio.reciprocal ⟨-2, 3⟩ = .ok ⟨-3, 2⟩ ∧
    ScaleRatio.divide Km.Scale ⟨-2, 3⟩ = .ok ⟨-1500, 1⟩ ∧
    (DividePhysicalUnits Km ⟨timeDim, ⟨-2, 3⟩⟩).map (fun u => u.Scale) = .ok ⟨-1500, 1⟩ ∧
    (DividePhysicalUnits Km ⟨timeDim, ⟨-2, 3⟩⟩).map (fun u => u.Scale) =
      ScaleRatio.divide Km.Scale (⟨timeDim, ⟨-2, 3⟩⟩ : PhysicalUnits).Scale :=
  ⟨by decide, by decide, by decide, by decide,
    (divide_is_multiply_by_reciprocal Km ⟨timeDim, ⟨-2, 3⟩⟩ (by decide) (by decide)
      (by decide)).2.1⟩

/-! ## Algebraic laws -/

theorem divide_dimensions_self (a : PhysicalDimensions) :
    DividePhysicalDimensions a a = dimensionless := by
  simp [DividePhysicalDimensions, dimensionless]

/-- C16: conversion agrees with unit division. For well-formed units `Target` and
`Source` of the same dimension, `PhysicalUnitsConversionHelper<Target, Source>::Result`
is the scale of `DividePhysicalUnits<Source, Target>::Result` (both exist or both are
rejected), that quotient unit is dimensionless, and `DividePhysicalUnits<U, U>::Result`
is the dimensionless unit of scale 1/1. -/
theorem conversion_agrees_with_division (F : FloatType) (Target Source : PhysicalUnits)
    (hd : Target.PhysicalDimensions = Source.PhysicalDimensions)
    (hT : Target.WellFormed) (hS : Source.WellFormed) :
    (PhysicalUnitsConversionHelper F Target Source).map (fun c => c.Result) =
      (DividePhysicalUnits Source Target).map (fun u => u.Scale) ∧
    ((∃ u, DividePhysicalUnits Source Target = .ok u) ↔
      fits (Source.Scale.toRat / Target.Scale.toRat)) ∧
    (∀ u, DividePhysicalUnits Source Target = .ok u →
      u.PhysicalDimensions = dimensionless ∧
      ∃ c, PhysicalUnitsConversionHelper F Target Source = .ok c ∧ c.Result = u.Scale) ∧
    DividePhysicalUnits Target Target = .ok ⟨dimensionless, ⟨1, 1⟩⟩ ∧
    DividePhysicalUnits Source Source = .ok ⟨dimensionless, ⟨1, 1⟩⟩ := by
  have hself : ∀ U : PhysicalUnits, U.WellFormed →
      DividePhysicalUnits U U = .ok ⟨dimensionless, ⟨1, 1⟩⟩ := by
    intro U hU
    rw [divide_eq U U hU.1 hU.1 hU.2.1, div_self hU.toRat_ne_zero, if_pos fits_one,
      divide_dimensions_self]
    rfl
  refine ⟨?_, ?_, fun u hu => ?_, hself _ hT, hself _ hS⟩
  · rw [conversion_map_result F Target Source hd, divide_map_scale]
  · rw [divide_eq Source Target hS.1 hT.1 hT.2.1]
    by_cases hf : fits (Source.Scale.toRat / Target.Scale.toRat)
    · rw [if_pos hf]; exact ⟨fun _ => hf, fun _ => ⟨_, rfl⟩⟩
    · rw [if_neg hf]; exact ⟨fun ⟨u, hu⟩ => (by cases hu), fun h => absurd h hf⟩
  · obtain ⟨hf, rfl⟩ := divide_ok Source Target u hS.1 hT.1 hT.2.1 hu
    refine ⟨?_, ?_⟩
    · show DividePhysicalDimensions _ _ = _
      rw [hd, divide_dimensions_self]
    · rw [conversion_eq F Target Source hd hT.1 hS.1 hT.2.1, if_pos hf]
      exact ⟨_, rfl, rfl⟩

/-- Witness of C16: kilometres as target and metres as source. -/
theorem conversion_agrees_with_division_witness :
    (Km.PhysicalDimensions = M.PhysicalDimensions ∧ Km.WellFormed ∧ M.WellFormed) ∧
    DividePhysicalUnits M Km = .ok ⟨dimensionless, ⟨1, 1000⟩⟩ ∧
    (PhysicalUnitsConversionHelper exactFloat Km M).map (fun c => c.Result) =
      .ok ⟨1, 1000⟩ ∧
    DividePhysicalUnits Km Km = .ok ⟨dimensionless, ⟨1, 1⟩⟩ ∧
    (PhysicalUnitsConversionHelper exactFloat Km M).map (fun c => c.Result) =
      (DividePhysicalUnits M Km).map (fun u => u.Scale) :=
  ⟨by decide, by decide, by decide, by decide,
    (conversion_agrees_with_division exactFloat Km M (by decide) (by decide)
      (by decide)).1⟩

theorem multiply_dimensions_comm (a b : PhysicalDimensions) :
    MultiplyPhysicalDimensions a b = MultiplyPhysicalDimensions b a := by
  simp [MultiplyPhysicalDimensions, add_comm]

theorem multiply_dimensions_assoc (a b c : PhysicalDimensions) :
    MultiplyPhysicalDimensions (MultiplyPhysicalDimensions a b) c =
      MultiplyPhysicalDimensions a (MultiplyPhysicalDimensions b c) := by
  simp [MultiplyPhysicalDimensions, add_assoc]

theorem Ratio.members_eq_of_toRat_eq (r r' : Ratio) (h : r.Valid) (h' : r'.Valid)
    (hq : r.toRat = r'.toRat) : r.num = r'.num ∧ r.den = r'.den := by
  rw [Ratio.num_eq_toRat_num r, Ratio.num_eq_toRat_num r', Ratio.den_eq_toRat_den r h.1,
    Ratio.den_eq_toRat_den r' h'.1, hq]
  exact ⟨rfl, rfl⟩

theorem ratio_multiply_congr_left (r r' b : Ratio) (h : r.Valid) (h' : r'.Valid)
    (hq : r.toRat = r'.toRat) : ratio_multiply r b = ratio_multiply r' b := by
  obtain ⟨hn, hd⟩ := Ratio.members_eq_of_toRat_eq r r' h h' hq
  unfold ratio_multiply
  rw [Ratio.instantiate_of_valid r h, Ratio.instantiate_of_valid r' h', hn, hd]
  cases b.instantiate <;> rfl

theorem ratio_multiply_congr_right (r r' b : Ratio) (h : r.Valid) (h' : r'.Valid)
    (hq : r.toRat = r'.toRat) : ratio_multiply b r = ratio_multiply b r' := by
  obtain ⟨hn, hd⟩ := Ratio.members_eq_of_toRat_eq r r' h h' hq
  unfold ratio_multiply
  rw [Ratio.instantiate_of_valid r h, Ratio.instantiate_of_valid r' h', hn, hd]
  cases b.instantiate <;> rfl

theorem ratio_divide_congr_left (r r' b : Ratio) (h : r.Valid) (h' : r'.Valid)
    (hq : r.toRat = r'.toRat) : ratio_divide r b = ratio_divide r' b := by
  obtain ⟨hn, hd⟩ := Ratio.members_eq_of_toRat_eq r r' h h' hq
  unfold ratio_divide
  rw [Ratio.instantiate_of_valid r h, Ratio.instantiate_of_valid r' h', hn, hd]
  cases b.instantiate <;> rfl

theorem ratio_divide_congr_right (r r' b : Ratio) (h : r.Valid) (h' : r'.Valid)
    (hq : r.toRat = r'.toRat) : ratio_divide b r = ratio_divide b r' := by
  obtain ⟨hn, hd⟩ := Ratio.members_eq_of_toRat_eq r r' h h' hq
  unfold ratio_divide
  rw [Ratio.instantiate_of_valid r h, Ratio.instantiate_of_valid r' h', hn, hd]
  cases b.instantiate <;> rfl

/-- C19: results depend only on the value of a scale, not on how it is written. For
units `A` and `A'` of the same dimension whose valid scales are equal as rational
numbers, and every unit `B`, multiplying, dividing (on either side) and converting (as
target or as source) with `A` gives the same outcome as with `A'`: the same dimension,
the same lowest-terms scale, the same conversion ratio and float, or the same
rejection. -/
theorem results_independent_of_writing (F : FloatType) (A A' B : PhysicalUnits)
    (hd : A.PhysicalDimensions = A'.PhysicalDimensions)
    (hA : A.Scale.Valid) (hA' : A'.Scale.Valid)
    (hq : A.Scale.toRat = A'.Scale.toRat) :
    A.Scale.num = A'.Scale.num ∧ A.Scale.den = A'.Scale.den ∧
    MultiplyPhysicalUnits A B = MultiplyPhysicalUnits A' B ∧
    MultiplyPhysicalUnits B A = MultiplyPhysicalUnits B A' ∧
    DividePhysicalUnits A B = DividePhysicalUnits A' B ∧
    DividePhysicalUnits B A = DividePhysicalUnits B A' ∧
    PhysicalUnitsConversionHelper F A B = PhysicalUnitsConversionHelper F A' B ∧
    PhysicalUnitsConversionHelper F B A = PhysicalUnitsConversionHelper F B A' := by
  obtain ⟨hn, hden⟩ := Ratio.members_eq_of_toRat_eq _ _ hA hA' hq
  refine ⟨hn, hden, ?_, ?_, ?_, ?_, ?_, ?_⟩
  · unfold MultiplyPhysicalUnits
    rw [ratio_multiply_congr_left _ _ _ hA hA' hq, hd]
  · unfold MultiplyPhysicalUnits
    rw [ratio_multiply_congr_right _ _ _ hA hA' hq, hd]
  · unfold DividePhysicalUnits
    rw [ratio_divide_congr_left _ _ _ hA hA' hq, hd]
  · unfold DividePhysicalUnits
    rw [ratio_divide_congr_right _ _ _ hA hA' hq, hd]
  · unfold PhysicalUnitsConversionHelper
    rw [ratio_divide_congr_right _ _ _ hA hA' hq, hd]
  · unfold PhysicalUnitsConversionHelper
    rw [ratio_divide_congr_left _ _ _ hA hA' hq, hd]

/-- Witness of C19: the scale 2/4 against 1/2, and the scale 1/(-2) against -1/2, each
combined with the kilometre. -/
theorem results_independent_of_writing_witness :
    ((⟨lengthDim, ⟨2, 4⟩⟩ : PhysicalUnits).PhysicalDimensions =
        (⟨lengthDim, ⟨1, 2⟩⟩ : PhysicalUnits).PhysicalDimensions ∧
      (⟨lengthDim, ⟨2, 4⟩⟩ : PhysicalUnits).Scale.Valid ∧
      (⟨lengthDim, ⟨1, 2⟩⟩ : PhysicalUnits).Scale.Valid ∧
      (⟨lengthDim, ⟨2, 4⟩⟩ : PhysicalUnits).Scale.toRat =
        (⟨lengthDim, ⟨1, 2⟩⟩ : PhysicalUnits).Scale.toRat) ∧
    MultiplyPhysicalUnits ⟨lengthDim, ⟨2, 4⟩⟩ Km = .ok ⟨areaDim, ⟨500, 1⟩⟩ ∧
    MultiplyPhysicalUnits ⟨lengthDim, ⟨1, 2⟩⟩ Km = .ok ⟨areaDim, ⟨500, 1⟩⟩ ∧
    DividePhysicalUnits Km ⟨lengthDim, ⟨1, -2⟩⟩ = .ok ⟨dimensionless, ⟨-2000, 1⟩⟩ ∧
    DividePhysicalUnits Km ⟨lengthDim, ⟨-1, 2⟩⟩ = .ok ⟨dimensionless, ⟨-2000, 1⟩⟩ ∧
    (PhysicalUnitsConversionHelper exactFloat ⟨lengthDim, ⟨1, -2⟩⟩ Km).map
      (fun c => c.Result) = .ok ⟨-2000, 1⟩ ∧
    (PhysicalUnitsConversionHelper exactFloat ⟨lengthDim, ⟨-1, 2⟩⟩ Km).map
      (fun c => c.Result) = .ok ⟨-2000, 1⟩ ∧
    ((⟨lengthDim, ⟨2, 4⟩⟩ : PhysicalUnits).Scale.num =
        (⟨lengthDim, ⟨1, 2⟩⟩ : PhysicalUnits).Scale.num ∧
      (⟨lengthDim, ⟨2, 4⟩⟩ : PhysicalUnits).Scale.den =
        (⟨lengthDim, ⟨1, 2⟩⟩ : PhysicalUnits).Scale.den ∧
      MultiplyPhysicalUnits ⟨lengthDim, ⟨2, 4⟩⟩ Km =
        MultiplyPhysicalUnits ⟨lengthDim, ⟨1, 2⟩⟩ Km ∧
      MultiplyPhysicalUnits Km ⟨lengthDim, ⟨2, 4⟩⟩ =
        MultiplyPhysicalUnits Km ⟨lengthDim, ⟨1, 2⟩⟩ ∧
      DividePhysicalUnits ⟨lengthDim, ⟨2, 4⟩⟩ Km =
        DividePhysicalUnits ⟨lengthDim, ⟨1, 2⟩⟩ Km ∧
      DividePhysicalUnits Km ⟨lengthDim, ⟨2, 4⟩⟩ =
        DividePhysicalUnits Km ⟨lengthDim, ⟨1, 2⟩⟩ ∧
      PhysicalUnitsConversionHelper exactFloat ⟨lengthDim, ⟨2, 4⟩⟩ Km =
        PhysicalUnitsConversionHelper exactFloat ⟨lengthDim, ⟨1, 2⟩⟩ Km ∧
      PhysicalUnitsConversionHelper exactFloat Km ⟨lengthDim, ⟨2, 4⟩⟩ =
        PhysicalUnitsConversionHelper exactFloat Km ⟨lengthDim, ⟨1, 2⟩⟩) :=
  ⟨⟨by decide, by decide, by decide, by norm_num [Ratio.toRat]⟩,
    by decide, by decide, by decide, by decide, by decide, by decide,
    results_independent_of_writing exactFloat ⟨lengthDim, ⟨2, 4⟩⟩ ⟨lengthDim, ⟨1, 2⟩⟩ Km
      (by decide) (by decide) (by decide) (by norm_num [Ratio.toRat])⟩

/-! ## Lemmas on the rounding float type -/

theorem roundHalfEven_sub_le (x : ℚ) : |(roundHalfEven x : ℚ) - x| ≤ 1 / 2 := by
  have h0 : (0 : ℚ) ≤ x - ⌊x⌋ := sub_nonneg.mpr (Int.floor_le x)
  have h1 : x - ⌊x⌋ < 1 := by linarith [Int.lt_floor_add_one x]
  unfold roundHalfEven
  split_ifs with ha hb hc
  · rw [abs_le]; constructor <;> linarith
  · rw [abs_le]; push_cast; constructor <;> linarith
  · rw [abs_le]; constructor <;> linarith
  · rw [abs_le]; push_cast; constructor <;> linarith

theorem roundHalfEven_eq_of_lt (x : ℚ) (m : Int) (h : |x - m| < 1 / 2) :
    roundHalfEven x = m := by
  rw [abs_lt] at h
  have hb := roundHalfEven_sub_le x
  rw [abs_le] at hb
  have : |((roundHalfEven x : Int) : ℚ) - (m : ℚ)| < 1 := by
    rw [abs_lt]; constructor <;> linarith
  have h2 : |roundHalfEven x - m| < 1 := by exact_mod_cast this
  have := Int.abs_lt_one_iff.mp h2
  omega

theorem int_log_two_eq (q : ℚ) (e : Int) (h0 : 0 < q) (h1 : (2 : ℚ) ^ e ≤ q)
    (h2 : q < (2 : ℚ) ^ (e + 1)) : Int.log 2 q = e := by
  have a : e ≤ Int.log 2 q := by
    rw [← Int.zpow_le_iff_le_log (by norm_num) h0]; simpa using h1
  have b : Int.log 2 q < e + 1 := by
    rw [← Int.lt_zpow_iff_log_lt (by norm_num) h0]; simpa using h2
  omega

theorem roundBinary64_eq (q : ℚ) (e m : Int) (h1 : (2 : ℚ) ^ e ≤ |q|)
    (h2 : |q| < (2 : ℚ) ^ (e + 1)) (hm : |q / (2 : ℚ) ^ (e - 52) - m| < 1 / 2) :
    roundBinary64 q = (m : ℚ) * (2 : ℚ) ^ (e - 52) := by
  have hq : 0 < |q| := lt_of_lt_of_le (by positivity) h1
  unfold roundBinary64
  rw [if_neg (abs_pos.mp hq), int_log_two_eq |q| e hq h1 h2, roundHalfEven_eq_of_lt _ m hm]

theorem roundBinary64_eq_of_pos (q : ℚ) (e m : Int) (h0 : 0 < q) (h1 : (2 : ℚ) ^ e ≤ q)
    (h2 : q < (2 : ℚ) ^ (e + 1)) (hm : |q / (2 : ℚ) ^ (e - 52) - m| < 1 / 2) :
    roundBinary64 q = (m : ℚ) * (2 : ℚ) ^ (e - 52) := by
  rw [← abs_of_pos h0] at h1 h2
  exact roundBinary64_eq q e m h1 h2 hm

theorem roundBinary64_rel (q : ℚ) : |roundBinary64 q - q| ≤ |q| / 2 ^ 53 := by
  unfold roundBinary64
  by_cases hq : q = 0
  · simp [hq]
  · rw [if_neg hq]
    have hpos : 0 < |q| := abs_pos.mpr hq
    have hs : (0 : ℚ) < (2 : ℚ) ^ (Int.log 2 |q| - 52) := by positivity
    have hlog : (2 : ℚ) ^ (Int.log 2 |q|) ≤ |q| := by
      simpa using Int.zpow_log_le_self (b := 2) (by norm_num) hpos
    have hr := roundHalfEven_sub_le (q / (2 : ℚ) ^ (Int.log 2 |q| - 52))
    have e1 : (roundHalfEven (q / (2 : ℚ) ^ (Int.log 2 |q| - 52)) : ℚ) *
          (2 : ℚ) ^ (Int.log 2 |q| - 52) - q =
        ((roundHalfEven (q / (2 : ℚ) ^ (Int.log 2 |q| - 52)) : ℚ) -
          q / (2 : ℚ) ^ (Int.log 2 |q| - 52)) * (2 : ℚ) ^ (Int.log 2 |q| - 52) := by
      field_simp
    rw [e1, abs_mul, abs_of_pos hs]
    have e2 : (2 : ℚ) ^ (Int.log 2 |q| - 52) = (2 : ℚ) ^ (Int.log 2 |q|) / 2 ^ 52 := by
      rw [zpow_sub₀ (by norm_num)]; norm_num
    calc _ ≤ 1 / 2 * (2 : ℚ) ^ (Int.log 2 |q| - 52) := by gcongr
      _ = (2 : ℚ) ^ (Int.log 2 |q|) / 2 ^ 53 := by rw [e2]; ring
      _ ≤ |q| / 2 ^ 53 := by gcongr


theorem roundBinary64_factor (q : ℚ) :
    ∃ p : ℚ, 1 - 1 / 2 ^ 53 ≤ p ∧ p ≤ 1 + 1 / 2 ^ 53 ∧ roundBinary64 q = q * p := by
  by_cases hq : q = 0
  · exact ⟨1, by norm_num, by norm_num, by simp [hq, roundBinary64]⟩
  · have h := roundBinary64_rel q
    have hpos : 0 < |q| := abs_pos.mpr hq
    refine ⟨roundBinary64 q / q, ?_, ?_, by field_simp⟩
    all_goals
      have e : roundBinary64 q / q - 1 = (roundBinary64 q - q) / q := by field_simp
      have hb : |roundBinary64 q / q - 1| ≤ 1 / 2 ^ 53 := by
        rw [e, abs_div, div_le_iff₀ hpos]
        calc _ ≤ |q| / 2 ^ 53 := h
          _ = 1 / 2 ^ 53 * |q| := by ring
      rw [abs_le] at hb
      linarith [hb.1, hb.2]

theorem factor_bounds (p1 p2 p3 p4 p5 p6 p7 : ℚ)
    (h1 : 1 - 1 / 2 ^ 53 ≤ p1 ∧ p1 ≤ 1 + 1 / 2 ^ 53)
    (h2 : 1 - 1 / 2 ^ 53 ≤ p2 ∧ p2 ≤ 1 + 1 / 2 ^ 53)
    (h3 : 1 - 1 / 2 ^ 53 ≤ p3 ∧ p3 ≤ 1 + 1 / 2 ^ 53)
    (h4 : 1 - 1 / 2 ^ 53 ≤ p4 ∧ p4 ≤ 1 + 1 / 2 ^ 53)
    (h5 : 1 - 1 / 2 ^ 53 ≤ p5 ∧ p5 ≤ 1 + 1 / 2 ^ 53)
    (h6 : 1 - 1 / 2 ^ 53 ≤ p6 ∧ p6 ≤ 1 + 1 / 2 ^ 53)
    (h7 : 1 - 1 / 2 ^ 53 ≤ p7 ∧ p7 ≤ 1 + 1 / 2 ^ 53) :
    |p1 * p3 * p4 * p6 * p7 / (p2 * p5) - 1| ≤ 1 / 2 ^ 50 := by
  have hlo : (0 : ℚ) < 1 - 1 / 2 ^ 53 := by norm_num
  have q1 := lt_of_lt_of_le hlo h1.1
  have q2 := lt_of_lt_of_le hlo h2.1
  have q3 := lt_of_lt_of_le hlo h3.1
  have q4 := lt_of_lt_of_le hlo h4.1
  have q5 := lt_of_lt_of_le hlo h5.1
  have q6 := lt_of_lt_of_le hlo h6.1
  have q7 := lt_of_lt_of_le hlo h7.1
  have hN1 : (1 - 1 / 2 ^ 53) * (1 - 1 / 2 ^ 53) * (1 - 1 / 2 ^ 53) * (1 - 1 / 2 ^ 53) *
      (1 - 1 / 2 ^ 53) ≤ p1 * p3 * p4 * p6 * p7 := by
    have := h1.1; have := h3.1; have := h4.1; have := h6.1; have := h7.1
    gcongr
  have hN2 : p1 * p3 * p4 * p6 * p7 ≤ (1 + 1 / 2 ^ 53) * (1 + 1 / 2 ^ 53) * (1 + 1 / 2 ^ 53) *
      (1 + 1 / 2 ^ 53) * (1 + 1 / 2 ^ 53) := by
    have := h1.2; have := h3.2; have := h4.2; have := h6.2; have := h7.2
    gcongr
  have hD1 : (1 - 1 / 2 ^ 53) * (1 - 1 / 2 ^ 53) ≤ p2 * p5 := by
    have := h2.1; have := h5.1
    gcongr
  have hD2 : p2 * p5 ≤ (1 + 1 / 2 ^ 53) * (1 + 1 / 2 ^ 53) := by
    have := h2.2; have := h5.2
    gcongr
  have hDpos : 0 < p2 * p5 := mul_pos q2 q5
  have hNpos : 0 < p1 * p3 * p4 * p6 * p7 := by positivity
  have hlow : 1 - 1 / 2 ^ 50 ≤ p1 * p3 * p4 * p6 * p7 / (p2 * p5) := by
    rw [le_div_iff₀ hDpos]
    calc (1 - 1 / 2 ^ 50) * (p2 * p5)
        ≤ (1 - 1 / 2 ^ 50) * ((1 + 1 / 2 ^ 53) * (1 + 1 / 2 ^ 53)) := by
          apply mul_le_mul_of_nonneg_left hD2; norm_num
      _ ≤ (1 - 1 / 2 ^ 53) * (1 - 1 / 2 ^ 53) * (1 - 1 / 2 ^ 53) * (1 - 1 / 2 ^ 53) *
            (1 - 1 / 2 ^ 53) := by norm_num
      _ ≤ _ := hN1
  have hupp : p1 * p3 * p4 * p6 * p7 / (p2 * p5) ≤ 1 + 1 / 2 ^ 50 := by
    rw [div_le_iff₀ hDpos]
    calc p1 * p3 * p4 * p6 * p7 ≤ _ := hN2
      _ ≤ (1 + 1 / 2 ^ 50) * ((1 - 1 / 2 ^ 53) * (1 - 1 / 2 ^ 53)) := by norm_num
      _ ≤ (1 + 1 / 2 ^ 50) * (p2 * p5) := by
          apply mul_le_mul_of_nonneg_left hD1; norm_num
  rw [abs_le]
  constructor <;> linarith

theorem binary64_reciprocal_bound (a b a' b' : ℚ) (h : a / b * (a' / b') = 1) :
    |roundBinary64 (roundBinary64 a / roundBinary64 b) *
        roundBinary64 (roundBinary64 a' / roundBinary64 b') - 1| ≤ 1 / 2 ^ 50 ∧
    |roundBinary64 (roundBinary64 (roundBinary64 a / roundBinary64 b) *
        roundBinary64 (roundBinary64 a' / roundBinary64 b')) - 1| ≤ 1 / 2 ^ 50 := by
  have hb : b ≠ 0 := by rintro rfl; simp at h
  have hb' : b' ≠ 0 := by rintro rfl; simp at h
  obtain ⟨p1, l1, u1, e1⟩ := roundBinary64_factor a
  obtain ⟨p2, l2, u2, e2⟩ := roundBinary64_factor b
  obtain ⟨p4, l4, u4, e4⟩ := roundBinary64_factor a'
  obtain ⟨p5, l5, u5, e5⟩ := roundBinary64_factor b'
  rw [e1, e2, e4, e5]
  obtain ⟨p3, l3, u3, e3⟩ := roundBinary64_factor (a * p1 / (b * p2))
  obtain ⟨p6, l6, u6, e6⟩ := roundBinary64_factor (a' * p4 / (b' * p5))
  rw [e3, e6]
  obtain ⟨p7, l7, u7, e7⟩ :=
    roundBinary64_factor (a * p1 / (b * p2) * p3 * (a' * p4 / (b' * p5) * p6))
  rw [e7]
  have hlo : (0 : ℚ) < 1 - 1 / 2 ^ 53 := by norm_num
  have hp2 : p2 ≠ 0 := (lt_of_lt_of_le hlo l2).ne.symm
  have hp5 : p5 ≠ 0 := (lt_of_lt_of_le hlo l5).ne.symm
  have key : a * p1 / (b * p2) * p3 * (a' * p4 / (b' * p5) * p6) =
      a / b * (a' / b') * (p1 * p3 * p4 * p6 / (p2 * p5)) := by
    field_simp
    ring
  rw [key, h, one_mul]
  constructor
  · have := factor_bounds p1 p2 p3 p4 p5 p6 1 ⟨l1, u1⟩ ⟨l2, u2⟩ ⟨l3, u3⟩ ⟨l4, u4⟩ ⟨l5, u5⟩
      ⟨l6, u6⟩ ⟨by norm_num, by norm_num⟩
    simpa using this
  · have := factor_bounds p1 p2 p3 p4 p5 p6 p7 ⟨l1, u1⟩ ⟨l2, u2⟩ ⟨l3, u3⟩ ⟨l4, u4⟩ ⟨l5, u5⟩
      ⟨l6, u6⟩ ⟨l7, u7⟩
    have e : p1 * p3 * p4 * p6 / (p2 * p5) * p7 = p1 * p3 * p4 * p6 * p7 / (p2 * p5) := by
      ring
    rw [e]; exact this

theorem conversion_kFloatRatio (F : FloatType) (Lhs Rhs : PhysicalUnits)
    (c : ConversionHelper F) (h : PhysicalUnitsConversionHelper F Lhs Rhs = .ok c) :
    c.kFloatRatio = F.div (F.cast c.Result.num) (F.cast c.Result.den) := by
  unfold PhysicalUnitsConversionHelper at h
  split at h
  · split at h
    · cases h
    · injection h with h
      subst h
      rfl
  · cases h

theorem conversion_exists_of_result (F : FloatType) (Lhs Rhs : PhysicalUnits) (r : Ratio)
    (h : (PhysicalUnitsConversionHelper F Lhs Rhs).map (fun c => c.Result) = .ok r) :
    ∃ c, PhysicalUnitsConversionHelper F Lhs Rhs = .ok c ∧ c.Result = r := by
  cases h' : PhysicalUnitsConversionHelper F Lhs Rhs with
  | error e => rw [h'] at h; cases h
  | ok c =>
    rw [h'] at h
    injection h with h
    exact ⟨c, rfl, h⟩

theorem roundBinary64_one : roundBinary64 1 = 1 := by
  rw [roundBinary64_eq_of_pos 1 0 (2 ^ 52) (by norm_num) (by norm_num) (by norm_num)
    (by norm_num)]
  norm_num

theorem roundBinary64_49 : roundBinary64 49 = 49 := by
  rw [roundBinary64_eq_of_pos 49 5 (49 * 2 ^ 47) (by norm_num) (by norm_num) (by norm_num)
    (by norm_num)]
  norm_num

theorem roundBinary64_inv_49 : roundBinary64 (1 / 49) = 5882252574524729 / 2 ^ 58 := by
  rw [roundBinary64_eq_of_pos (1 / 49) (-6) 5882252574524729 (by norm_num) (by norm_num)
    (by norm_num) (by norm_num [abs_lt])]
  norm_num

theorem roundBinary64_product_49 :
    roundBinary64 (5882252574524729 / 2 ^ 58 * 49) = 1 - 1 / 2 ^ 53 := by
  rw [roundBinary64_eq_of_pos (5882252574524729 / 2 ^ 58 * 49) (-1) (2 ^ 53 - 1) (by norm_num)
    (by norm_num) (by norm_num) (by norm_num [abs_lt])]
  norm_num

theorem conversion_exists_iff (F : FloatType) (Lhs Rhs : PhysicalUnits)
    (hd : Lhs.PhysicalDimensions = Rhs.PhysicalDimensions)
    (hL : Lhs.Scale.Valid) (hR : Rhs.Scale.Valid) (hn : Lhs.Scale.num ≠ 0) :
    (∃ c, PhysicalUnitsConversionHelper F Lhs Rhs = .ok c) ↔
      fits (Rhs.Scale.toRat / Lhs.Scale.toRat) := by
  rw [conversion_eq F Lhs Rhs hd hL hR hn]
  by_cases hf : fits (Rhs.Scale.toRat / Lhs.Scale.toRat)
  · rw [if_pos hf]; exact ⟨fun _ => hf, fun _ => ⟨_, rfl⟩⟩
  · rw [if_neg hf]; exact ⟨fun ⟨c, hc⟩ => (by cases hc), fun h => absurd h hf⟩

theorem multiply_exists_iff (A B : PhysicalUnits) (hA : A.Scale.Valid) (hB : B.Scale.Valid) :
    (∃ u, MultiplyPhysicalUnits A B = .ok u) ↔ fits (A.Scale.toRat * B.Scale.toRat) := by
  rw [multiply_eq A B hA hB]
  by_cases hf : fits (A.Scale.toRat * B.Scale.toRat)
  · rw [if_pos hf]; exact ⟨fun _ => hf, fun _ => ⟨_, rfl⟩⟩
  · rw [if_neg hf]; exact ⟨fun ⟨c, hc⟩ => (by cases hc), fun h => absurd h hf⟩

theorem divide_exists_iff (A B : PhysicalUnits) (hA : A.Scale.Valid) (hB : B.Scale.Valid)
    (hn : B.Scale.num ≠ 0) :
    (∃ u, DividePhysicalUnits A B = .ok u) ↔ fits (A.Scale.toRat / B.Scale.toRat) := by
  rw [divide_eq A B hA hB hn]
  by_cases hf : fits (A.Scale.toRat / B.Scale.toRat)
  · rw [if_pos hf]; exact ⟨fun _ => hf, fun _ => ⟨_, rfl⟩⟩
  · rw [if_neg hf]; exact ⟨fun ⟨c, hc⟩ => (by cases hc), fun h => absurd h hf⟩

/-! ## Laws that hold up to rounding or up to overflow -/

/-- C7, counterexample: in binary64 the reciprocal law does not hold exactly. For the
unit of scale 49/1 and the metre, the two conversion ratios are 1/49 and 49/1; their
floats are `5882252574524729 / 2^58` and `49`, whose exact product and whose binary64
product `1 - 2^-53` both differ from 1. -/
theorem reciprocal_not_exact_in_binary64 :
    ((⟨lengthDim, ⟨49, 1⟩⟩ : PhysicalUnits).WellFormed ∧ M.WellFormed ∧
      (⟨lengthDim, ⟨49, 1⟩⟩ : PhysicalUnits).PhysicalDimensions = M.PhysicalDimensions) ∧
    ∃ c c', PhysicalUnitsConversionHelper binary64 ⟨lengthDim, ⟨49, 1⟩⟩ M = .ok c ∧
      PhysicalUnitsConversionHelper binary64 M ⟨lengthDim, ⟨49, 1⟩⟩ = .ok c' ∧
      c.Result = ⟨1, 49⟩ ∧ c'.Result = ⟨49, 1⟩ ∧
      binary64Value c.kFloatRatio = 5882252574524729 / 2 ^ 58 ∧
      binary64Value c'.kFloatRatio = 49 ∧
      roundBinary64 (binary64Value c.kFloatRatio * binary64Value c'.kFloatRatio) =
        1 - 1 / 2 ^ 53 ∧
      roundBinary64 (binary64Value c.kFloatRatio * binary64Value c'.kFloatRatio) ≠ 1 ∧
      binary64Value c.kFloatRatio * binary64Value c'.kFloatRatio ≠ 1 := by
  refine ⟨by decide, ?_⟩
  obtain ⟨c, hc, hr⟩ := conversion_exists_of_result binary64 ⟨lengthDim, ⟨49, 1⟩⟩ M ⟨1, 49⟩
    (by decide)
  obtain ⟨c', hc', hr'⟩ := conversion_exists_of_result binary64 M ⟨lengthDim, ⟨49, 1⟩⟩ ⟨49, 1⟩
    (by decide)
  have hk : binary64Value c.kFloatRatio = 5882252574524729 / 2 ^ 58 := by
    have h := conversion_kFloatRatio binary64 _ _ c hc
    rw [hr] at h
    have n1 : (⟨1, 49⟩ : Ratio).num = 1 := by decide
    have d1 : (⟨1, 49⟩ : Ratio).den = 49 := by decide
    rw [n1, d1] at h
    have h2 : binary64Value c.kFloatRatio =
        roundBinary64 (roundBinary64 ((1 : Int) : ℚ) / roundBinary64 ((49 : Int) : ℚ)) :=
      congrArg binary64Value h
    rw [h2, Int.cast_one, Int.cast_ofNat, roundBinary64_one, roundBinary64_49,
      roundBinary64_inv_49]
  have hk' : binary64Value c'.kFloatRatio = 49 := by
    have h := conversion_kFloatRatio binary64 _ _ c' hc'
    rw [hr'] at h
    have n1 : (⟨49, 1⟩ : Ratio).num = 49 := by decide
    have d1 : (⟨49, 1⟩ : Ratio).den = 1 := by decide
    rw [n1, d1] at h
    have h2 : binary64Value c'.kFloatRatio =
        roundBinary64 (roundBinary64 ((49 : Int) : ℚ) / roundBinary64 ((1 : Int) : ℚ)) :=
      congrArg binary64Value h
    rw [h2, Int.cast_one, Int.cast_ofNat, roundBinary64_one, roundBinary64_49, div_one,
      roundBinary64_49]
  refine ⟨c, c', hc, hc', hr, hr', hk, hk', ?_, ?_, ?_⟩
  · rw [hk, hk', roundBinary64_product_49]
  · rw [hk, hk', roundBinary64_product_49]; norm_num
  · rw [hk, hk']; norm_num

/-- C7, amended: reciprocal law. For well-formed units `A` and `B` of the same
dimension, whenever the conversion with target `A` and source `B` exists, so does the
one with target `B` and source `A`. At the exact-rational stage the two ratios multiply
to 1, the second is the first with numerator and denominator swapped and the sign kept
on the numerator, and `std::ratio_multiply` of the two is exactly 1/1. The two floats
are `cast(num) / cast(den)` of these reciprocal ratios in the float type: their product
is exactly 1 in exact arithmetic, and in binary64 both their exact product and their
rounded product are within `2^-50` of 1. -/
theorem conversion_reciprocal (F : FloatType) (A B : PhysicalUnits)
    (hd : A.PhysicalDimensions = B.PhysicalDimensions)
    (hA : A.WellFormed) (hB : B.WellFormed) :
    (fits (B.Scale.toRat / A.Scale.toRat) →
      ∃ c, PhysicalUnitsConversionHelper F A B = .ok c) ∧
    (∀ c, PhysicalUnitsConversionHelper F A B = .ok c →
      ∃ c', PhysicalUnitsConversionHelper F B A = .ok c' ∧
        ((c.Result.num : ℚ) / (c.Result.den : ℚ)) *
          ((c'.Result.num : ℚ) / (c'.Result.den : ℚ)) = 1 ∧
        c'.Result.num = Int.sign c.Result.num * c.Result.den ∧
        c'.Result.den = |c.Result.num| ∧
        ratio_multiply c.Result c'.Result = .ok ⟨1, 1⟩ ∧
        c.kFloatRatio = F.div (F.cast c.Result.num) (F.cast c.Result.den) ∧
        c'.kFloatRatio =
          F.div (F.cast (Int.sign c.Result.num * c.Result.den)) (F.cast |c.Result.num|)) ∧
    (∀ c c', PhysicalUnitsConversionHelper exactFloat A B = .ok c →
      PhysicalUnitsConversionHelper exactFloat B A = .ok c' →
      exactValue c.kFloatRatio * exactValue c'.kFloatRatio = 1) ∧
    (∀ c c', PhysicalUnitsConversionHelper binary64 A B = .ok c →
      PhysicalUnitsConversionHelper binary64 B A = .ok c' →
      |binary64Value c.kFloatRatio * binary64Value c'.kFloatRatio - 1| ≤ 1 / 2 ^ 50 ∧
      |roundBinary64 (binary64Value c.kFloatRatio * binary64Value c'.kFloatRatio) - 1| ≤
        1 / 2 ^ 50) := by
  have hq : B.Scale.toRat / A.Scale.toRat ≠ 0 :=
    div_ne_zero hB.toRat_ne_zero hA.toRat_ne_zero
  have hinv : A.Scale.toRat / B.Scale.toRat = (B.Scale.toRat / A.Scale.toRat)⁻¹ :=
    (inv_div _ _).symm
  have hval : ∀ (G : FloatType) (c c' : ConversionHelper G),
      PhysicalUnitsConversionHelper G A B = .ok c →
      PhysicalUnitsConversionHelper G B A = .ok c' →
      ((c.Result.num : ℚ) / (c.Result.den : ℚ)) *
        ((c'.Result.num : ℚ) / (c'.Result.den : ℚ)) = 1 := by
    intro G c c' hc hc'
    obtain ⟨hf, hr⟩ := conversion_ok G A B c hd hA.1 hB.1 hA.2.1 hc
    obtain ⟨hf', hr'⟩ := conversion_ok G B A c' hd.symm hB.1 hA.1 hB.2.1 hc'
    rw [Ratio.value_eq_toRat _ (hr ▸ Ratio.valid_mk_of_fits _ hf).1,
      Ratio.value_eq_toRat _ (hr' ▸ Ratio.valid_mk_of_fits _ hf').1, hr, hr',
      Ratio.toRat_mk_num_den, Ratio.toRat_mk_num_den, hinv, mul_inv_cancel₀ hq]
  refine ⟨fun hf => ?_, fun c hc => ?_, fun c c' hc hc' => ?_, fun c c' hc hc' => ?_⟩
  · rw [conversion_eq F A B hd hA.1 hB.1 hA.2.1, if_pos hf]; exact ⟨_, rfl⟩
  · obtain ⟨hf, hr⟩ := conversion_ok F A B c hd hA.1 hB.1 hA.2.1 hc
    have hf' : fits (A.Scale.toRat / B.Scale.toRat) := hinv ▸ fits_inv _ hq hf
    have hex : ∃ c', PhysicalUnitsConversionHelper F B A = .ok c' := by
      rw [conversion_eq F B A hd.symm hB.1 hA.1 hB.2.1, if_pos hf']; exact ⟨_, rfl⟩
    obtain ⟨c', hc'⟩ := hex
    obtain ⟨_, hr'⟩ := conversion_ok F B A c' hd.symm hB.1 hA.1 hB.2.1 hc'
    have hnum : c'.Result.num = Int.sign c.Result.num * c.Result.den := by
      rw [hr, hr', Ratio.num_mk_num_den, Ratio.num_mk_num_den, Ratio.den_mk_num_den, hinv,
        rat_inv_num]
    have hden : c'.Result.den = |c.Result.num| := by
      rw [hr, hr', Ratio.num_mk_num_den, Ratio.den_mk_num_den, hinv, rat_inv_den _ hq]
    refine ⟨c', hc', hval F c c' hc hc', hnum, hden, ?_, conversion_kFloatRatio F A B c hc, ?_⟩
    · rw [hr, hr', ratio_multiply_eq _ _ (Ratio.valid_mk_of_fits _ hf)
        (Ratio.valid_mk_of_fits _ hf'), Ratio.toRat_mk_num_den, Ratio.toRat_mk_num_den, hinv,
        mul_inv_cancel₀ hq, if_pos fits_one]
      rfl
    · rw [← hnum, ← hden]
      exact conversion_kFloatRatio F B A c' hc'
  · have h1 : exactValue c.kFloatRatio = (c.Result.num : ℚ) / (c.Result.den : ℚ) :=
      congrArg exactValue (conversion_kFloatRatio exactFloat A B c hc)
    have h2 : exactValue c'.kFloatRatio = (c'.Result.num : ℚ) / (c'.Result.den : ℚ) :=
      congrArg exactValue (conversion_kFloatRatio exactFloat B A c' hc')
    rw [h1, h2]
    exact hval exactFloat c c' hc hc'
  · have h1 : binary64Value c.kFloatRatio =
        roundBinary64 (roundBinary64 (c.Result.num : ℚ) / roundBinary64 (c.Result.den : ℚ)) :=
      congrArg binary64Value (conversion_kFloatRatio binary64 A B c hc)
    have h2 : binary64Value c'.kFloatRatio =
        roundBinary64 (roundBinary64 (c'.Result.num : ℚ) / roundBinary64 (c'.Result.den : ℚ)) :=
      congrArg binary64Value (conversion_kFloatRatio binary64 B A c' hc')
    rw [h1, h2]
    exact binary64_reciprocal_bound _ _ _ _ (hval binary64 c c' hc hc')

/-- Witness of C7 as amended: kilometres and millimetres, with ratios 1/1000000 and
1000000/1. -/
theorem conversion_reciprocal_witness :
    (Km.PhysicalDimensions = Mm.PhysicalDimensions ∧ Km.WellFormed ∧ Mm.WellFormed) ∧
    ((fits (Mm.Scale.toRat / Km.Scale.toRat) →
      ∃ c, PhysicalUnitsConversionHelper exactFloat Km Mm = .ok c) ∧
    (∀ c, PhysicalUnitsConversionHelper exactFloat Km Mm = .ok c →
      ∃ c', PhysicalUnitsConversionHelper exactFloat Mm Km = .ok c' ∧
        ((c.Result.num : ℚ) / (c.Result.den : ℚ)) *
          ((c'.Result.num : ℚ) / (c'.Result.den : ℚ)) = 1 ∧
        c'.Result.num = Int.sign c.Result.num * c.Result.den ∧
        c'.Result.den = |c.Result.num| ∧
        ratio_multiply c.Result c'.Result = .ok ⟨1, 1⟩ ∧
        c.kFloatRatio =
          exactFloat.div (exactFloat.cast c.Result.num) (exactFloat.cast c.Result.den) ∧
        c'.kFloatRatio =
          exactFloat.div (exactFloat.cast (Int.sign c.Result.num * c.Result.den))
            (exactFloat.cast |c.Result.num|)) ∧
    (∀ c c', PhysicalUnitsConversionHelper exactFloat Km Mm = .ok c →
      PhysicalUnitsConversionHelper exactFloat Mm Km = .ok c' →
      exactValue c.kFloatRatio * exactValue c'.kFloatRatio = 1) ∧
    (∀ c c', PhysicalUnitsConversionHelper binary64 Km Mm = .ok c →
      PhysicalUnitsConversionHelper binary64 Mm Km = .ok c' →
      |binary64Value c.kFloatRatio * binary64Value c'.kFloatRatio - 1| ≤ 1 / 2 ^ 50 ∧
      |roundBinary64 (binary64Value c.kFloatRatio * binary64Value c'.kFloatRatio) - 1| ≤
        1 / 2 ^ 50)) ∧
    (PhysicalUnitsConversionHelper exactFloat Km Mm).map (fun c => c.Result) =
      .ok ⟨1, 1000000⟩ ∧
    (PhysicalUnitsConversionHelper exactFloat Mm Km).map (fun c => c.Result) =
      .ok ⟨1000000, 1⟩ ∧
    (PhysicalUnitsConversionHelper exactFloat Km Mm).map (fun c => c.kFloatRatio) =
      .ok ((1 : ℚ) / 1000000) ∧
    (PhysicalUnitsConversionHelper exactFloat Mm Km).map (fun c => c.kFloatRatio) =
      .ok ((1000000 : ℚ) / 1) :=
  ⟨by decide, conversion_reciprocal exactFloat Km Mm (by decide) (by decide) (by decide),
    by decide, by decide, rfl, rfl⟩

/-- C15, counterexample: the direct conversion can exist while both steps are rejected.
With the well-formed lengths `A = INTMAX_MAX/1`, `B = 1/2` and `C = (INTMAX_MAX - 1)/1`,
the conversion from `C` to `A` has the ratio `(INTMAX_MAX - 1)/INTMAX_MAX`, while the
conversions from `B` to `A` and from `C` to `B` overflow, so there are no two ratios to
multiply. -/
theorem conversion_steps_can_overflow :
    ((⟨lengthDim, ⟨INTMAX_MAX, 1⟩⟩ : PhysicalUnits).WellFormed ∧
      (⟨lengthDim, ⟨1, 2⟩⟩ : PhysicalUnits).WellFormed ∧
      (⟨lengthDim, ⟨INTMAX_MAX - 1, 1⟩⟩ : PhysicalUnits).WellFormed) ∧
    (PhysicalUnitsConversionHelper exactFloat ⟨lengthDim, ⟨INTMAX_MAX, 1⟩⟩
      ⟨lengthDim, ⟨INTMAX_MAX - 1, 1⟩⟩).map (fun c => c.Result) =
        .ok ⟨INTMAX_MAX - 1, INTMAX_MAX⟩ ∧
    (PhysicalUnitsConversionHelper exactFloat ⟨lengthDim, ⟨INTMAX_MAX, 1⟩⟩
      ⟨lengthDim, ⟨1, 2⟩⟩).map (fun c => c.Result) = .error .overflow ∧
    (PhysicalUnitsConversionHelper exactFloat ⟨lengthDim, ⟨1, 2⟩⟩
      ⟨lengthDim, ⟨INTMAX_MAX - 1, 1⟩⟩).map (fun c => c.Result) = .error .overflow := by
  decide

/-- C17, counterexample: the products and the conversion between them can exist while
both factor conversions are rejected. With `A = INTMAX_MAX/1` and `B = 1/2` lengths,
`C = 1/INTMAX_MAX` and `D = 2/1` times, all well-formed, `A*C` and `B*D` both have scale
1/1 and the conversion between them is 1/1, while the conversions from `B` to `A` and
from `D` to `C` overflow, so there are no two ratios to multiply. -/
theorem factor_conversions_can_overflow :
    ((⟨lengthDim, ⟨INTMAX_MAX, 1⟩⟩ : PhysicalUnits).WellFormed ∧
      (⟨lengthDim, ⟨1, 2⟩⟩ : PhysicalUnits).WellFormed ∧
      (⟨timeDim, ⟨1, INTMAX_MAX⟩⟩ : PhysicalUnits).WellFormed ∧
      (⟨timeDim, ⟨2, 1⟩⟩ : PhysicalUnits).WellFormed) ∧
    MultiplyPhysicalUnits ⟨lengthDim, ⟨INTMAX_MAX, 1⟩⟩ ⟨timeDim, ⟨1, INTMAX_MAX⟩⟩ =
      .ok ⟨⟨1, 0, 1, 0, 0, 0, 0⟩, ⟨1, 1⟩⟩ ∧
    MultiplyPhysicalUnits ⟨lengthDim, ⟨1, 2⟩⟩ ⟨timeDim, ⟨2, 1⟩⟩ =
      .ok ⟨⟨1, 0, 1, 0, 0, 0, 0⟩, ⟨1, 1⟩⟩ ∧
    (PhysicalUnitsConversionHelper exactFloat ⟨⟨1, 0, 1, 0, 0, 0, 0⟩, ⟨1, 1⟩⟩
      ⟨⟨1, 0, 1, 0, 0, 0, 0⟩, ⟨1, 1⟩⟩).map (fun c => c.Result) = .ok ⟨1, 1⟩ ∧
    (PhysicalUnitsConversionHelper exactFloat ⟨lengthDim, ⟨INTMAX_MAX, 1⟩⟩
      ⟨lengthDim, ⟨1, 2⟩⟩).map (fun c => c.Result) = .error .overflow ∧
    (PhysicalUnitsConversionHelper exactFloat ⟨timeDim, ⟨1, INTMAX_MAX⟩⟩
      ⟨timeDim, ⟨2, 1⟩⟩).map (fun c => c.Result) = .error .overflow := by
  decide

/-- C18, counterexample: multiplication is not associative as to which products exist.
With the well-formed lengths `A = 1/2`, `B = 2/1` and `C = INTMAX_MAX/1`, `A*B` is 1/1
and `(A*B)*C` is `INTMAX_MAX/1`, while `B*C` overflows, so `A*(B*C)` is rejected. -/
theorem multiply_not_associative_on_overflow :
    ((⟨lengthDim, ⟨1, 2⟩⟩ : PhysicalUnits).WellFormed ∧
      (⟨lengthDim, ⟨2, 1⟩⟩ : PhysicalUnits).WellFormed ∧
      (⟨lengthDim, ⟨INTMAX_MAX, 1⟩⟩ : PhysicalUnits).WellFormed) ∧
    MultiplyPhysicalUnits ⟨lengthDim, ⟨1, 2⟩⟩ ⟨lengthDim, ⟨2, 1⟩⟩ = .ok ⟨areaDim, ⟨1, 1⟩⟩ ∧
    MultiplyPhysicalUnits ⟨areaDim, ⟨1, 1⟩⟩ ⟨lengthDim, ⟨INTMAX_MAX, 1⟩⟩ =
      .ok ⟨⟨3, 0, 0, 0, 0, 0, 0⟩, ⟨INTMAX_MAX, 1⟩⟩ ∧
    MultiplyPhysicalUnits ⟨lengthDim, ⟨2, 1⟩⟩ ⟨lengthDim, ⟨INTMAX_MAX, 1⟩⟩ =
      .error .overflow := by
  decide

/-- C15, amended: conversions chain exactly whenever both steps exist. For well-formed
units `A`, `B`, `C` of the same dimension, each of the three conversions exists exactly
when the lowest terms of its quotient of scales are representable; whenever the
conversions `B` to `A` and `C` to `B` both exist, `std::ratio_multiply` of the two
ratios is the ratio of the direct conversion `C` to `A`, with the same rejection when
the lowest terms do not fit; and when the direct conversion exists too, the product of
the two ratios is its exact rational value. -/
theorem conversion_chain (F : FloatType) (A B C : PhysicalUnits)
    (hAB : A.PhysicalDimensions = B.PhysicalDimensions)
    (hBC : B.PhysicalDimensions = C.PhysicalDimensions)
    (hA : A.WellFormed) (hB : B.WellFormed) (hC : C.WellFormed) :
    ((∃ c1, PhysicalUnitsConversionHelper F A B = .ok c1) ↔
      fits (B.Scale.toRat / A.Scale.toRat)) ∧
    ((∃ c2, PhysicalUnitsConversionHelper F B C = .ok c2) ↔
      fits (C.Scale.toRat / B.Scale.toRat)) ∧
    ((∃ c3, PhysicalUnitsConversionHelper F A C = .ok c3) ↔
      fits (C.Scale.toRat / A.Scale.toRat)) ∧
    ∀ c1 c2, PhysicalUnitsConversionHelper F A B = .ok c1 →
      PhysicalUnitsConversionHelper F B C = .ok c2 →
      ratio_multiply c1.Result c2.Result =
        (PhysicalUnitsConversionHelper F A C).map (fun c => c.Result) ∧
      ∀ c3, PhysicalUnitsConversionHelper F A C = .ok c3 →
        ((c1.Result.num : ℚ) / (c1.Result.den : ℚ)) *
          ((c2.Result.num : ℚ) / (c2.Result.den : ℚ)) =
          (c3.Result.num : ℚ) / (c3.Result.den : ℚ) := by
  refine ⟨conversion_exists_iff F A B hAB hA.1 hB.1 hA.2.1,
    conversion_exists_iff F B C hBC hB.1 hC.1 hB.2.1,
    conversion_exists_iff F A C (hAB.trans hBC) hA.1 hC.1 hA.2.1, ?_⟩
  intro c1 c2 h1 h2
  obtain ⟨hf1, hr1⟩ := conversion_ok F A B c1 hAB hA.1 hB.1 hA.2.1 h1
  obtain ⟨hf2, hr2⟩ := conversion_ok F B C c2 hBC hB.1 hC.1 hB.2.1 h2
  have hq : B.Scale.toRat / A.Scale.toRat * (C.Scale.toRat / B.Scale.toRat) =
      C.Scale.toRat / A.Scale.toRat := by
    field_simp [hA.toRat_ne_zero, hB.toRat_ne_zero]
    ring
  have hv1 : c1.Result.Valid := hr1 ▸ Ratio.valid_mk_of_fits _ hf1
  have hv2 : c2.Result.Valid := hr2 ▸ Ratio.valid_mk_of_fits _ hf2
  have ht1 : c1.Result.toRat = B.Scale.toRat / A.Scale.toRat := by
    rw [hr1, Ratio.toRat_mk_num_den]
  have ht2 : c2.Result.toRat = C.Scale.toRat / B.Scale.toRat := by
    rw [hr2, Ratio.toRat_mk_num_den]
  refine ⟨?_, fun c3 h3 => ?_⟩
  · rw [conversion_map_result F A C (hAB.trans hBC),
      ratio_divide_eq _ _ hC.1 hA.1 hA.2.1, ratio_multiply_eq _ _ hv1 hv2, ht1, ht2, hq]
  · obtain ⟨hf3, hr3⟩ := conversion_ok F A C c3 (hAB.trans hBC) hA.1 hC.1 hA.2.1 h3
    have ht3 : c3.Result.toRat = C.Scale.toRat / A.Scale.toRat := by
      rw [hr3, Ratio.toRat_mk_num_den]
    rw [Ratio.value_eq_toRat _ hv1.1, Ratio.value_eq_toRat _ hv2.1,
      Ratio.value_eq_toRat _ (hr3 ▸ Ratio.valid_mk_of_fits _ hf3).1, ht1, ht2, ht3, hq]

/-- Witness of C15 as amended: millimetres to metres (1/1000), metres to kilometres
(1/1000) and millimetres to kilometres (1/1000000). -/
theorem conversion_chain_witness :
    (Km.PhysicalDimensions = M.PhysicalDimensions ∧
      M.PhysicalDimensions = Mm.PhysicalDimensions ∧
      Km.WellFormed ∧ M.WellFormed ∧ Mm.WellFormed) ∧
    (PhysicalUnitsConversionHelper exactFloat Km M).map (fun c => c.Result) =
      .ok ⟨1, 1000⟩ ∧
    (PhysicalUnitsConversionHelper exactFloat M Mm).map (fun c => c.Result) =
      .ok ⟨1, 1000⟩ ∧
    (PhysicalUnitsConversionHelper exactFloat Km Mm).map (fun c => c.Result) =
      .ok ⟨1, 1000000⟩ ∧
    ratio_multiply ⟨1, 1000⟩ ⟨1, 1000⟩ = .ok ⟨1, 1000000⟩ ∧
    (((∃ c1, PhysicalUnitsConversionHelper exactFloat Km M = .ok c1) ↔
      fits (M.Scale.toRat / Km.Scale.toRat)) ∧
    ((∃ c2, PhysicalUnitsConversionHelper exactFloat M Mm = .ok c2) ↔
      fits (Mm.Scale.toRat / M.Scale.toRat)) ∧
    ((∃ c3, PhysicalUnitsConversionHelper exactFloat Km Mm = .ok c3) ↔
      fits (Mm.Scale.toRat / Km.Scale.toRat)) ∧
    ∀ c1 c2, PhysicalUnitsConversionHelper exactFloat Km M = .ok c1 →
      PhysicalUnitsConversionHelper exactFloat M Mm = .ok c2 →
      ratio_multiply c1.Result c2.Result =
        (PhysicalUnitsConversionHelper exactFloat Km Mm).map (fun c => c.Result) ∧
      ∀ c3, PhysicalUnitsConversionHelper exactFloat Km Mm = .ok c3 →
        ((c1.Result.num : ℚ) / (c1.Result.den : ℚ)) *
          ((c2.Result.num : ℚ) / (c2.Result.den : ℚ)) =
          (c3.Result.num : ℚ) / (c3.Result.den : ℚ)) :=
  ⟨by decide, by decide, by decide, by decide, by decide,
    conversion_chain exactFloat Km M Mm (by decide) (by decide) (by decide) (by decide)
      (by decide)⟩

/-- C17, amended: conversion is compatible with composition whenever the factor
conversions exist. For well-formed units with `dim A = dim B` and `dim C = dim D`, the
products `A*C`, `B*D` and the conversions `B` to `A`, `D` to `C` all exist when the
lowest terms of their scales are representable; whenever they exist, the two products
have equal dimensions and the conversion ratio from `B*D` to `A*C` is
`std::ratio_multiply` of the two ratios, with the same rejection when the lowest terms
do not fit; likewise for the quotients `A/C`, `B/D` and `std::ratio_divide` of the two
ratios. -/
theorem conversion_of_composition (F : FloatType) (A B C D : PhysicalUnits)
    (hAB : A.PhysicalDimensions = B.PhysicalDimensions)
    (hCD : C.PhysicalDimensions = D.PhysicalDimensions)
    (hA : A.WellFormed) (hB : B.WellFormed) (hC : C.WellFormed) (hD : D.WellFormed) :
    (fits (B.Scale.toRat / A.Scale.toRat) → fits (D.Scale.toRat / C.Scale.toRat) →
      (∃ c1, PhysicalUnitsConversionHelper F A B = .ok c1) ∧
      (∃ c2, PhysicalUnitsConversionHelper F C D = .ok c2)) ∧
    (fits (A.Scale.toRat * C.Scale.toRat) → fits (B.Scale.toRat * D.Scale.toRat) →
      (∃ P, MultiplyPhysicalUnits A C = .ok P) ∧ (∃ Q, MultiplyPhysicalUnits B D = .ok Q)) ∧
    (fits (A.Scale.toRat / C.Scale.toRat) → fits (B.Scale.toRat / D.Scale.toRat) →
      (∃ P, DividePhysicalUnits A C = .ok P) ∧ (∃ Q, DividePhysicalUnits B D = .ok Q)) ∧
    (∀ P Q c1 c2, MultiplyPhysicalUnits A C = .ok P → MultiplyPhysicalUnits B D = .ok Q →
      PhysicalUnitsConversionHelper F A B = .ok c1 →
      PhysicalUnitsConversionHelper F C D = .ok c2 →
      P.PhysicalDimensions = Q.PhysicalDimensions ∧
      (PhysicalUnitsConversionHelper F P Q).map (fun c => c.Result) =
        ratio_multiply c1.Result c2.Result) ∧
    (∀ P Q c1 c2, DividePhysicalUnits A C = .ok P → DividePhysicalUnits B D = .ok Q →
      PhysicalUnitsConversionHelper F A B = .ok c1 →
      PhysicalUnitsConversionHelper F C D = .ok c2 →
      P.PhysicalDimensions = Q.PhysicalDimensions ∧
      (PhysicalUnitsConversionHelper F P Q).map (fun c => c.Result) =
        ratio_divide c1.Result c2.Result) := by
  have ha := hA.toRat_ne_zero
  have hb := hB.toRat_ne_zero
  have hc := hC.toRat_ne_zero
  have hd := hD.toRat_ne_zero
  refine ⟨fun h1 h2 => ⟨(conversion_exists_iff F A B hAB hA.1 hB.1 hA.2.1).mpr h1,
      (conversion_exists_iff F C D hCD hC.1 hD.1 hC.2.1).mpr h2⟩,
    fun h1 h2 => ⟨(multiply_exists_iff A C hA.1 hC.1).mpr h1,
      (multiply_exists_iff B D hB.1 hD.1).mpr h2⟩,
    fun h1 h2 => ⟨(divide_exists_iff A C hA.1 hC.1 hC.2.1).mpr h1,
      (divide_exists_iff B D hB.1 hD.1 hD.2.1).mpr h2⟩,
    fun P Q c1 c2 hP hQ h1 h2 => ?_, fun P Q c1 c2 hP hQ h1 h2 => ?_⟩
  · obtain ⟨hfP, rfl⟩ := multiply_ok A C P hA.1 hC.1 hP
    obtain ⟨hfQ, rfl⟩ := multiply_ok B D Q hB.1 hD.1 hQ
    obtain ⟨hf1, hr1⟩ := conversion_ok F A B c1 hAB hA.1 hB.1 hA.2.1 h1
    obtain ⟨hf2, hr2⟩ := conversion_ok F C D c2 hCD hC.1 hD.1 hC.2.1 h2
    have hdim : MultiplyPhysicalDimensions A.PhysicalDimensions C.PhysicalDimensions =
        MultiplyPhysicalDimensions B.PhysicalDimensions D.PhysicalDimensions := by
      rw [hAB, hCD]
    refine ⟨hdim, ?_⟩
    rw [conversion_map_result F _ _ hdim,
      ratio_divide_eq _ _ (Ratio.valid_mk_of_fits _ hfQ) (Ratio.valid_mk_of_fits _ hfP)
        (wellFormed_mk dimensionless _ (mul_ne_zero ha hc) hfP).2.1,
      hr1, hr2,
      ratio_multiply_eq _ _ (Ratio.valid_mk_of_fits _ hf1) (Ratio.valid_mk_of_fits _ hf2)]
    simp only [Ratio.toRat_mk_num_den, mul_div_mul_comm]
  · obtain ⟨hfP, rfl⟩ := divide_ok A C P hA.1 hC.1 hC.2.1 hP
    obtain ⟨hfQ, rfl⟩ := divide_ok B D Q hB.1 hD.1 hD.2.1 hQ
    obtain ⟨hf1, hr1⟩ := conversion_ok F A B c1 hAB hA.1 hB.1 hA.2.1 h1
    obtain ⟨hf2, hr2⟩ := conversion_ok F C D c2 hCD hC.1 hD.1 hC.2.1 h2
    have hdim : DividePhysicalDimensions A.PhysicalDimensions C.PhysicalDimensions =
        DividePhysicalDimensions B.PhysicalDimensions D.PhysicalDimensions := by
      rw [hAB, hCD]
    refine ⟨hdim, ?_⟩
    rw [conversion_map_result F _ _ hdim,
      ratio_divide_eq _ _ (Ratio.valid_mk_of_fits _ hfQ) (Ratio.valid_mk_of_fits _ hfP)
        (wellFormed_mk dimensionless _ (div_ne_zero ha hc) hfP).2.1,
      hr1, hr2,
      ratio_divide_eq _ _ (Ratio.valid_mk_of_fits _ hf1) (Ratio.valid_mk_of_fits _ hf2)
        (wellFormed_mk dimensionless _ (div_ne_zero hd hc) hf2).2.1]
    simp only [Ratio.toRat_mk_num_den, div_div_div_comm]

/-- Witness of C17 as amended: `A = Km`, `B = M`, `C` the minute `(time, 60/1)` and
`D = S`. The ratio from `M*S` to `Km*minute` is 1/60000, the product of 1/1000 and
1/60; the ratio from `M/S` to `Km/minute` is 3/50, the quotient of 1/1000 by 1/60. -/
theorem conversion_of_composition_witness :
    (Km.PhysicalDimensions = M.PhysicalDimensions ∧
      (⟨timeDim, ⟨60, 1⟩⟩ : PhysicalUnits).PhysicalDimensions = S.PhysicalDimensions ∧
      Km.WellFormed ∧ M.WellFormed ∧ (⟨timeDim, ⟨60, 1⟩⟩ : PhysicalUnits).WellFormed ∧
      S.WellFormed) ∧
    MultiplyPhysicalUnits Km ⟨timeDim, ⟨60, 1⟩⟩ = .ok ⟨⟨1, 0, 1, 0, 0, 0, 0⟩, ⟨60000, 1⟩⟩ ∧
    MultiplyPhysicalUnits M S = .ok ⟨⟨1, 0, 1, 0, 0, 0, 0⟩, ⟨1, 1⟩⟩ ∧
    (PhysicalUnitsConversionHelper exactFloat ⟨⟨1, 0, 1, 0, 0, 0, 0⟩, ⟨60000, 1⟩⟩
      ⟨⟨1, 0, 1, 0, 0, 0, 0⟩, ⟨1, 1⟩⟩).map (fun c => c.Result) = .ok ⟨1, 60000⟩ ∧
    ratio_multiply ⟨1, 1000⟩ ⟨1, 60⟩ = .ok ⟨1, 60000⟩ ∧
    DividePhysicalUnits Km ⟨timeDim, ⟨60, 1⟩⟩ = .ok ⟨⟨1, 0, -1, 0, 0, 0, 0⟩, ⟨50, 3⟩⟩ ∧
    DividePhysicalUnits M S = .ok ⟨⟨1, 0, -1, 0, 0, 0, 0⟩, ⟨1, 1⟩⟩ ∧
    (PhysicalUnitsConversionHelper exactFloat ⟨⟨1, 0, -1, 0, 0, 0, 0⟩, ⟨50, 3⟩⟩
      ⟨⟨1, 0, -1, 0, 0, 0, 0⟩, ⟨1, 1⟩⟩).map (fun c => c.Result) = .ok ⟨3, 50⟩ ∧
    ratio_divide ⟨1, 1000⟩ ⟨1, 60⟩ = .ok ⟨3, 50⟩ ∧
    (∀ P Q c1 c2, MultiplyPhysicalUnits Km ⟨timeDim, ⟨60, 1⟩⟩ = .ok P →
      MultiplyPhysicalUnits M S = .ok Q →
      PhysicalUnitsConversionHelper exactFloat Km M = .ok c1 →
      PhysicalUnitsConversionHelper exactFloat ⟨timeDim, ⟨60, 1⟩⟩ S = .ok c2 →
      P.PhysicalDimensions = Q.PhysicalDimensions ∧
      (PhysicalUnitsConversionHelper exactFloat P Q).map (fun c => c.Result) =
        ratio_multiply c1.Result c2.Result) ∧
    (∀ P Q c1 c2, DividePhysicalUnits Km ⟨timeDim, ⟨60, 1⟩⟩ = .ok P →
      DividePhysicalUnits M S = .ok Q →
      PhysicalUnitsConversionHelper exactFloat Km M = .ok c1 →
      PhysicalUnitsConversionHelper exactFloat ⟨timeDim, ⟨60, 1⟩⟩ S = .ok c2 →
      P.PhysicalDimensions = Q.PhysicalDimensions ∧
      (PhysicalUnitsConversionHelper exactFloat P Q).map (fun c => c.Result) =
        ratio_divide c1.Result c2.Result) :=
  ⟨by decide, by decide, by decide, by decide, by decide, by decide, by decide, by decide,
    by decide,
    (conversion_of_composition exactFloat Km M ⟨timeDim, ⟨60, 1⟩⟩ S (by decide) (by decide)
      (by decide) (by decide) (by decide) (by decide)).2.2.2.1,
    (conversion_of_composition exactFloat Km M ⟨timeDim, ⟨60, 1⟩⟩ S (by decide) (by decide)
      (by decide) (by decide) (by decide) (by decide)).2.2.2.2⟩

/-- C18, amended: unit multiplication is commutative, and associative whenever both
inner products exist. For well-formed units, `MultiplyPhysicalUnits<A, B>` and
`MultiplyPhysicalUnits<B, A>` are the same (the same dimension and lowest-terms scale,
or the same rejection); the inner products `A*B` and `B*C` exist exactly when the lowest
terms of their scales are representable, and whenever both exist, `(A*B)*C` and
`A*(B*C)` are the same (the same unit, or the same rejection). -/
theorem multiply_comm_assoc (A B C : PhysicalUnits)
    (hA : A.WellFormed) (hB : B.WellFormed) (hC : C.WellFormed) :
    MultiplyPhysicalUnits A B = MultiplyPhysicalUnits B A ∧
    ((∃ P, MultiplyPhysicalUnits A B = .ok P) ↔ fits (A.Scale.toRat * B.Scale.toRat)) ∧
    ((∃ Q, MultiplyPhysicalUnits B C = .ok Q) ↔ fits (B.Scale.toRat * C.Scale.toRat)) ∧
    (∀ P Q, MultiplyPhysicalUnits A B = .ok P → MultiplyPhysicalUnits B C = .ok Q →
      MultiplyPhysicalUnits P C = MultiplyPhysicalUnits A Q ∧
      ((∃ u, MultiplyPhysicalUnits P C = .ok u) ↔
        fits (A.Scale.toRat * B.Scale.toRat * C.Scale.toRat)) ∧
      ∀ u v, MultiplyPhysicalUnits P C = .ok u → MultiplyPhysicalUnits A Q = .ok v →
        u.PhysicalDimensions = v.PhysicalDimensions ∧ u.Scale.num = v.Scale.num ∧
          u.Scale.den = v.Scale.den) := by
  refine ⟨?_, multiply_exists_iff A B hA.1 hB.1, multiply_exists_iff B C hB.1 hC.1,
    fun P Q hP hQ => ?_⟩
  · rw [multiply_eq A B hA.1 hB.1, multiply_eq B A hB.1 hA.1, mul_comm B.Scale.toRat,
      multiply_dimensions_comm]
  · obtain ⟨hfP, rfl⟩ := multiply_ok A B P hA.1 hB.1 hP
    obtain ⟨hfQ, rfl⟩ := multiply_ok B C Q hB.1 hC.1 hQ
    have e : MultiplyPhysicalUnits
        ⟨MultiplyPhysicalDimensions A.PhysicalDimensions B.PhysicalDimensions,
          ⟨(A.Scale.toRat * B.Scale.toRat).num, ((A.Scale.toRat * B.Scale.toRat).den : Int)⟩⟩ C =
        MultiplyPhysicalUnits A
          ⟨MultiplyPhysicalDimensions B.PhysicalDimensions C.PhysicalDimensions,
            ⟨(B.Scale.toRat * C.Scale.toRat).num,
              ((B.Scale.toRat * C.Scale.toRat).den : Int)⟩⟩ := by
      rw [multiply_eq _ C (Ratio.valid_mk_of_fits _ hfP) hC.1,
        multiply_eq A _ hA.1 (Ratio.valid_mk_of_fits _ hfQ)]
      simp only [Ratio.toRat_mk_num_den, mul_assoc, multiply_dimensions_assoc]
    refine ⟨e, ?_, fun u v hu hv => ?_⟩
    · have h := multiply_exists_iff
        ⟨MultiplyPhysicalDimensions A.PhysicalDimensions B.PhysicalDimensions,
          ⟨(A.Scale.toRat * B.Scale.toRat).num, ((A.Scale.toRat * B.Scale.toRat).den : Int)⟩⟩ C
        (Ratio.valid_mk_of_fits _ hfP) hC.1
      simpa only [Ratio.toRat_mk_num_den] using h
    · rw [e, hv] at hu
      injection hu with hu
      subst hu
      exact ⟨rfl, rfl, rfl⟩

/-- Witness of C18 as amended: the kilometre, the millimetre and the second. -/
theorem multiply_comm_assoc_witness :
    (Km.WellFormed ∧ Mm.WellFormed ∧ S.WellFormed) ∧
    MultiplyPhysicalUnits Km Mm = .ok ⟨areaDim, ⟨1, 1⟩⟩ ∧
    MultiplyPhysicalUnits Mm Km = .ok ⟨areaDim, ⟨1, 1⟩⟩ ∧
    MultiplyPhysicalUnits ⟨areaDim, ⟨1, 1⟩⟩ S = .ok ⟨⟨2, 0, 1, 0, 0, 0, 0⟩, ⟨1, 1⟩⟩ ∧
    MultiplyPhysicalUnits Mm S = .ok ⟨⟨1, 0, 1, 0, 0, 0, 0⟩, ⟨1, 1000⟩⟩ ∧
    MultiplyPhysicalUnits Km ⟨⟨1, 0, 1, 0, 0, 0, 0⟩, ⟨1, 1000⟩⟩ =
      .ok ⟨⟨2, 0, 1, 0, 0, 0, 0⟩, ⟨1, 1⟩⟩ ∧
    MultiplyPhysicalUnits Km Mm = MultiplyPhysicalUnits Mm Km ∧
    (∀ P Q, MultiplyPhysicalUnits Km Mm = .ok P → MultiplyPhysicalUnits Mm S = .ok Q →
      MultiplyPhysicalUnits P S = MultiplyPhysicalUnits Km Q ∧
      ((∃ u, MultiplyPhysicalUnits P S = .ok u) ↔
        fits (Km.Scale.toRat * Mm.Scale.toRat * S.Scale.toRat)) ∧
      ∀ u v, MultiplyPhysicalUnits P S = .ok u → MultiplyPhysicalUnits Km Q = .ok v →
        u.PhysicalDimensions = v.PhysicalDimensions ∧ u.Scale.num = v.Scale.num ∧
          u.Scale.den = v.Scale.den) :=
  ⟨by decide, by decide, by decide, by decide, by decide, by decide,
    (multiply_comm_assoc Km Mm S (by decide) (by decide) (by decide)).1,
    (multiply_comm_assoc Km Mm S (by decide) (by decide) (by decide)).2.2.2⟩

end units
